import Mathlib

/-!
Verification of the polygon-to-mask rasterizer, glyph-aware mask refiner,
pixel-based text-extent prober, label normalization, and multi-pass
masked-edit pipeline of the thumbnail-generation service.

The TypeScript sources are embedded shallowly:

* JavaScript numbers are modelled as exact rationals (`ℚ`) and integers
  (`ℤ`).  All numeric values reaching the modelled code paths are either
  integers or small rationals for which JavaScript's binary floating point
  is exact or whose rounding behaviour coincides (noted where relevant);
  `Number.isFinite` checks are always true in this model.
* Mutable pixel buffers (`Buffer`) are modelled as total functions from
  byte index (`ℤ`) to byte value (`ℤ`); each imperative loop writes a
  constant value at an injectively-indexed set of bytes, so its net effect
  is the pointwise function recorded here.
* External capabilities (sharp image decoding, Gaussian blur, the OpenAI
  edit call, the storage sink) are opaque oracle parameters.
-/

namespace Mask

/-- A point in pixel coordinates (after percent→pixel conversion). -/
structure Pt where
  x : ℤ
  y : ℤ
deriving DecidableEq, Repr

/-- `MaskPolygon` from `mask-builder.ts`: a label plus percent points
`{xPct, yPct}`. -/
structure MaskPolygon where
  label : String
  points : List (ℚ × ℚ)

/-- `clampInt(n, min, max) = Math.min(max, Math.max(min, n | 0))` from
`mask-builder.ts`.  All arguments reaching it in the embedded code are
integers, for which `n | 0` is the identity and `Number.isFinite n` holds. -/
def clampInt (n lo hi : ℤ) : ℤ := min hi (max lo n)

/-- Percent→pixel conversion used by both mask builders:
`clampInt(Math.round((pct / 100) * dim), 0, dim - 1)`.
`Math.round` rounds half toward +∞, exactly Mathlib's `round`. -/
def toPx (pct : ℚ) (dim : ℤ) : ℤ := clampInt (round (pct / 100 * dim)) 0 (dim - 1)

/-- The pixel points of a polygon (`pts` in both builders).  The JS
`filter(Number.isFinite)` is a no-op in this model. -/
def polygonPts (width height : ℤ) (p : MaskPolygon) : List Pt :=
  p.points.map (fun q => ⟨toPx q.1 width, toPx q.2 height⟩)

/-- The cyclic edge list: `a = points[i], b = points[(i + 1) % n]`. -/
def edges (pts : List Pt) : List (Pt × Pt) :=
  match pts with
  | [] => []
  | p :: _ => pts.zip (pts.tail ++ [p])

/-- One edge's scanline intersection in `fillPolygonAlpha`: horizontal edges
are skipped, an edge is counted iff `yMin ≤ y < yMax` (half-open), and the
intersection is `a.x + (y - a.y) / (b.y - a.y) * (b.x - a.x)`. -/
def edgeCross (y : ℤ) (a b : Pt) : Option ℚ :=
  if a.y = b.y then none
  else if y < min a.y b.y ∨ max a.y b.y ≤ y then none
  else some ((a.x : ℚ) + ((y : ℚ) - (a.y : ℚ)) / ((b.y : ℚ) - (a.y : ℚ)) * ((b.x : ℚ) - (a.x : ℚ)))

/-- The `intersections` array collected for scanline `y`. -/
def crossings (pts : List Pt) (y : ℤ) : List ℚ :=
  (edges pts).filterMap (fun e => edgeCross y e.1 e.2)

/-- `intersections.sort((m, n) => m - n)`: ascending sort. -/
def sortedCrossings (pts : List Pt) (y : ℤ) : List ℚ :=
  List.insertionSort (· ≤ ·) (crossings pts y)

/-- The span pairs visited by `for (k = 0; k < intersections.length - 1; k += 2)`. -/
def spanPairs : List ℚ → List (ℚ × ℚ)
  | a :: b :: rest => (a, b) :: spanPairs rest
  | _ => []

/-- `minY` of `fillPolygonAlpha`: minimum vertex y, clamped to `[0, height-1]`.
For an empty point list the JS computes `clampInt(Infinity, 0, height-1) = 0`
(the `Number.isFinite` guard returns the lower bound). -/
def polyMinY (height : ℤ) (pts : List Pt) : ℤ :=
  match pts with
  | [] => 0
  | p :: rest => clampInt (rest.foldl (fun m q => min m q.y) p.y) 0 (height - 1)

/-- `maxY` of `fillPolygonAlpha` (empty list: `clampInt(-Infinity, …) = 0`). -/
def polyMaxY (height : ℤ) (pts : List Pt) : ℤ :=
  match pts with
  | [] => 0
  | p :: rest => clampInt (rest.foldl (fun m q => max m q.y) p.y) 0 (height - 1)

/-- Membership of pixel column `x` in one filled span:
`x0 = clampInt(Math.ceil(s.1), 0, width-1)`, `x1 = clampInt(Math.floor(s.2), 0, width-1)`,
fill `x0 ≤ x ≤ x1` (the `if x1 < x0 continue` is subsumed). -/
def inSpan (width x : ℤ) (s : ℚ × ℚ) : Bool :=
  decide (clampInt ⌈s.1⌉ 0 (width - 1) ≤ x ∧ x ≤ clampInt ⌊s.2⌋ 0 (width - 1))

/-- `fillPolygonAlpha` writes at pixel `(x, y)` iff `y` lies in the clamped
vertical vertex span, at least two intersections were collected, and `x`
lies in one of the spans between successive sorted intersection pairs. -/
def fillsPixel (width height : ℤ) (pts : List Pt) (x y : ℤ) : Bool :=
  decide (polyMinY height pts ≤ y) && decide (y ≤ polyMaxY height pts) &&
  decide (2 ≤ (sortedCrossings pts y).length) &&
  (spanPairs (sortedCrossings pts y)).any (inSpan width x)

/-- Byte index of the alpha channel of pixel `(x, y)`:
`(y * width + x) * 4 + 3`. -/
def alphaIdx (width x y : ℤ) : ℤ := (y * width + x) * 4 + 3

/-- `fillPolygonAlpha`: the imperative double loop writes the constant
`alpha` at byte `(y*width + x)*4 + 3` for every filled pixel `(x, y)`; the
filled pixels satisfy `0 ≤ x < width` and `0 ≤ y < height`, so pixel →
byte-index is injective and the loop's net effect is this pointwise update
(the written pixel is recovered as `x = (i/4) % width`, `y = (i/4) / width`). -/
def fillPolygonAlpha (width height : ℤ) (pts : List Pt) (alpha : ℤ) (rgba : ℤ → ℤ) : ℤ → ℤ :=
  fun i =>
    if i % 4 = 3 ∧ fillsPixel width height pts (i / 4 % width) (i / 4 / width) = true
    then alpha else rgba i

/-- The freshly allocated mask buffer: `Buffer.alloc(width*height*4, 0)`
followed by `rgba[i*4 + 3] = 255` for `0 ≤ i < width*height` — i.e. every
in-range alpha byte is 255 and every other byte is 0. -/
def initMaskBuffer (width height : ℤ) : ℤ → ℤ :=
  fun i => if 0 ≤ i ∧ i < width * height * 4 ∧ i % 4 = 3 then 255 else 0

/-- `polygons.filter((p) => includeLabel(String(p.label ?? '').trim()))`.
Trimming is JS `String.prototype.trim`, modelled below for proofs over
`String.data`; for matching we keep the `String`-level form. -/
def jsIsWhitespace (c : Char) : Bool := c = ' ' ∨ c = '\t' ∨ c = '\n' ∨ c = '\r'

/-- JS `trim` on the character list (drop whitespace on both ends).  JS also
trims a few rarer code points (form feed, NBSP, …) that never occur in the
labels handled here. -/
def jsTrim (l : List Char) : List Char :=
  ((l.dropWhile jsIsWhitespace).reverse.dropWhile jsIsWhitespace).reverse

def jsTrimStr (s : String) : String := String.mk (jsTrim s.data)

def labelMatches (includeLabel : String → Bool) (p : MaskPolygon) : Bool :=
  includeLabel (jsTrimStr p.label)

/-- One step of the polygon loop in `buildEditMaskPng`: skip polygons with
fewer than 3 points, otherwise fill with alpha 0. -/
def editStep (width height : ℤ) (rgba : ℤ → ℤ) (p : MaskPolygon) : ℤ → ℤ :=
  let pts := polygonPts width height p
  if pts.length < 3 then rgba else fillPolygonAlpha width height pts 0 rgba

/-- The raw raster produced by `buildEditMaskPng` before PNG encoding. -/
def editMaskBuffer (width height : ℤ) (polygons : List MaskPolygon)
    (includeLabel : String → Bool) : ℤ → ℤ :=
  (polygons.filter (labelMatches includeLabel)).foldl (editStep width height)
    (initMaskBuffer width height)

/-- `buildEditMaskPng`: throws `'Invalid mask dimensions'` when
`!width || !height || width <= 0 || height <= 0`; otherwise produces the
raster (the PNG encoding itself is outside the model). -/
def buildEditMask (width height : ℤ) (polygons : List MaskPolygon)
    (includeLabel : String → Bool) : Option (ℤ → ℤ) :=
  if width ≤ 0 ∨ height ≤ 0 then none
  else some (editMaskBuffer width height polygons includeLabel)

/-!  Specification-side geometry.  "Strictly inside" a (possibly concave)
polygon is the standard even–odd rule: a point not on the boundary whose
rightward horizontal ray crosses an odd number of edges, counting an edge
iff its y-span brackets the point's scanline half-open (the canonical
tie-breaking for rays through vertices).  These definitions are independent
of the rasterizer's code path above. -/

/-- `p` lies on the closed segment from `a` to `b` (collinear and within the
bounding box). -/
def onSeg (p a b : Pt) : Bool :=
  decide ((b.x - a.x) * (p.y - a.y) = (b.y - a.y) * (p.x - a.x) ∧
    min a.x b.x ≤ p.x ∧ p.x ≤ max a.x b.x ∧ min a.y b.y ≤ p.y ∧ p.y ≤ max a.y b.y)

/-- `p` lies on the polygon's boundary. -/
def onBoundary (pts : List Pt) (p : Pt) : Bool :=
  (edges pts).any (fun e => onSeg p e.1 e.2)

/-- The rightward horizontal ray from `p` crosses the segment `[a, b]`:
the segment's y-span brackets `p.y` half-open and the intersection abscissa
is strictly to the right of `p.x`. -/
def raySegCross (p a b : Pt) : Bool :=
  decide (((a.y ≤ p.y ∧ p.y < b.y) ∨ (b.y ≤ p.y ∧ p.y < a.y)) ∧
    (p.x : ℚ) < (a.x : ℚ) + ((p.y : ℚ) - (a.y : ℚ)) / ((b.y : ℚ) - (a.y : ℚ)) * ((b.x : ℚ) - (a.x : ℚ)))

/-- Number of polygon edges crossed by the rightward ray from `p`. -/
def rayCrossCount (pts : List Pt) (p : Pt) : ℕ :=
  ((edges pts).filter (fun e => raySegCross p e.1 e.2)).length

/-- Even–odd interior: off the boundary, odd crossing parity. -/
def strictlyInside (pts : List Pt) (p : Pt) : Prop :=
  onBoundary pts p = false ∧ rayCrossCount pts p % 2 = 1

/-- Even–odd exterior: off the boundary, even crossing parity. -/
def strictlyOutside (pts : List Pt) (p : Pt) : Prop :=
  onBoundary pts p = false ∧ rayCrossCount pts p % 2 = 0

/-!  The glyph-aware refiner `buildTextGlyphEditMaskPng`.  The source image
and the blurred extraction are external (sharp); they enter as oracles:
`origPx x y` is the source pixel at absolute coordinates, and
`blurredBox (left, top, boxW, boxH) x y` is pixel `(x, y)` of the blurred
copy of the extracted box (blur happens after extraction, so it is keyed by
the box rectangle).  Only the three colour channels are read. -/

structure RGB where
  r : ℤ
  g : ℤ
  b : ℤ

/-- `polygonBounds(points, width, height, padPx)`: padded bounding box,
clamped; `none` exactly when the point list is empty (JS: `minX`/`minY`
remain infinite).  Returns `(left, top, boxW, boxH)`. -/
def polygonBounds (pts : List Pt) (width height padPx : ℤ) : Option (ℤ × ℤ × ℤ × ℤ) :=
  match pts with
  | [] => none
  | p :: rest =>
    let minX := rest.foldl (fun m q => min m q.x) p.x
    let maxX := rest.foldl (fun m q => max m q.x) p.x
    let minY := rest.foldl (fun m q => min m q.y) p.y
    let maxY := rest.foldl (fun m q => max m q.y) p.y
    let left := clampInt (minX - padPx) 0 (width - 1)
    let top := clampInt (minY - padPx) 0 (height - 1)
    let right := clampInt (maxX + padPx) 0 (width - 1)
    let bottom := clampInt (maxY + padPx) 0 (height - 1)
    some (left, top, max 1 (right - left + 1), max 1 (bottom - top + 1))

/-- The high-frequency detector: per-channel absolute difference between the
extracted box and its blurred copy, thresholded (`d >= threshold`). -/
def edgeDetect (orig blurred : ℤ → ℤ → RGB) (threshold : ℤ) : ℤ → ℤ → Bool :=
  fun x y =>
    let o := orig x y
    let bl := blurred x y
    decide (threshold ≤ |o.r - bl.r| + |o.g - bl.g| + |o.b - bl.b|)

/-- `dilate(src, width, height, radius)`: morphological dilation over the
clamped `(2r+1)²` window (`radius | 0` is the identity here). -/
def dilate (src : ℤ → ℤ → Bool) (width height radius : ℤ) : ℤ → ℤ → Bool :=
  if radius ≤ 0 then src
  else fun x y =>
    decide (∃ yy ∈ Finset.Icc (max 0 (y - radius)) (min (height - 1) (y + radius)),
      ∃ xx ∈ Finset.Icc (max 0 (x - radius)) (min (width - 1) (x + radius)),
      src xx yy = true)

/-- One polygon's step in `buildTextGlyphEditMaskPng`: fill the polygon to
editable, compute the padded bounds (6 px), detect edges against the blurred
copy (threshold 26), dilate by 3, then reset any box pixel outside the grown
edge mask whose alpha is 0 back to 255.  As in `fillPolygonAlpha`, the reset
loop writes a constant at injectively-indexed alpha bytes of in-range pixels
(`left + boxW - 1 ≤ width - 1` and `top + boxH - 1 ≤ height - 1` by the
clamping in `polygonBounds`), so its net effect is this pointwise update. -/
def glyphStep (origPx : ℤ → ℤ → RGB) (blurredBox : ℤ × ℤ × ℤ × ℤ → ℤ → ℤ → RGB)
    (width height : ℤ) (rgba : ℤ → ℤ) (p : MaskPolygon) : ℤ → ℤ :=
  let pts := polygonPts width height p
  if pts.length < 3 then rgba
  else
    let rgba1 := fillPolygonAlpha width height pts 0 rgba
    match polygonBounds pts width height 6 with
    | none => rgba1
    | some (left, top, boxW, boxH) =>
      let orig := fun x y => origPx (left + x) (top + y)
      let blurred := blurredBox (left, top, boxW, boxH)
      let grown := dilate (edgeDetect orig blurred 26) boxW boxH 3
      fun i =>
        let ax := i / 4 % width
        let ay := i / 4 / width
        if i % 4 = 3 ∧ left ≤ ax ∧ ax < left + boxW ∧ top ≤ ay ∧ ay < top + boxH ∧
            grown (ax - left) (ay - top) = false ∧ rgba1 i = 0
        then 255 else rgba1 i

/-- The raw raster produced by `buildTextGlyphEditMaskPng` before PNG
encoding. -/
def glyphMaskBuffer (origPx : ℤ → ℤ → RGB) (blurredBox : ℤ × ℤ × ℤ × ℤ → ℤ → ℤ → RGB)
    (width height : ℤ) (polygons : List MaskPolygon) (includeLabel : String → Bool) : ℤ → ℤ :=
  (polygons.filter (labelMatches includeLabel)).foldl
    (glyphStep origPx blurredBox width height) (initMaskBuffer width height)

/-- `buildTextGlyphEditMaskPng` (dimension guard as in `buildEditMaskPng`). -/
def buildTextGlyphEditMask (origPx : ℤ → ℤ → RGB)
    (blurredBox : ℤ × ℤ × ℤ × ℤ → ℤ → ℤ → RGB) (width height : ℤ)
    (polygons : List MaskPolygon) (includeLabel : String → Bool) : Option (ℤ → ℤ) :=
  if width ≤ 0 ∨ height ≤ 0 then none
  else some (glyphMaskBuffer origPx blurredBox width height polygons includeLabel)

instance (pts : List Pt) (p : Pt) : Decidable (strictlyInside pts p) := by
  unfold strictlyInside; infer_instance

instance (pts : List Pt) (p : Pt) : Decidable (strictlyOutside pts p) := by
  unfold strictlyOutside; infer_instance

/-- Whether one polygon's scanline fill writes byte `i` (alpha byte of a
filled pixel of a polygon with at least 3 converted points). -/
def editTouches (w h : ℤ) (p : MaskPolygon) (i : ℤ) : Bool :=
  let pts := polygonPts w h p
  !(decide (pts.length < 3)) && decide (i % 4 = 3) &&
    fillsPixel w h pts (i / 4 % w) (i / 4 / w)

/-- A raw RGBA raster is a binary mask: alpha bytes are 0 or 255, all other
bytes are 0. -/
def isBinaryMask (b : ℤ → ℤ) : Prop :=
  ∀ i : ℤ, (i % 4 = 3 → b i = 0 ∨ b i = 255) ∧ (i % 4 ≠ 3 → b i = 0)

end Mask

/-! ### Definitions: label normalization, text-extent prober, pipeline.
Theorems for all components follow after the definitions. -/

namespace Gen

/-- JS `toLowerCase` restricted to its ASCII action (`A`–`Z` ↦ `a`–`z`);
the labels and synonyms handled by the service are ASCII. -/
def jsToLowerChar (c : Char) : Char :=
  if 65 ≤ c.toNat ∧ c.toNat ≤ 90 then Char.ofNat (c.toNat + 32) else c

def jsToLower (l : List Char) : List Char := l.map jsToLowerChar

/-- `String(value ?? '').trim().toLowerCase()` on the character list. -/
def labelKey (l : List Char) : List Char := jsToLower (Mask.jsTrim l)

/-- `normalizePolygonLabel` from `generations.service.ts`, on character
lists.  `s.startsWith('text:')` is the 5-character prefix comparison. -/
def normalizePolygonLabelData (value : List Char) : List Char :=
  let s := labelKey value
  if s = [] then []
  else if s = "background image".data ∨ s = "background photo".data ∨
      s = "bg".data ∨ s = "background_scene".data then "background".data
  else if s = "main subject".data ∨ s = "subject".data ∨ s = "foreground".data ∨
      s = "fg".data ∨ s = "person".data then "main".data
  else if s = "text".data then "text".data
  else if s.take 5 = "text:".data then s
  else s

def normalizePolygonLabel (value : String) : String :=
  String.mk (normalizePolygonLabelData value.data)

/-- Raw polygon entries from `Template.config` (non-object entries and the
`?? []` defaults are outside the typed model). -/
structure RawPolygon where
  label : String
  points : List (ℚ × ℚ)

/-- `normalizePolygons`: drop polygons with an empty normalized label or
fewer than 3 points. -/
def normalizePolygons (polygons : List RawPolygon) : List Mask.MaskPolygon :=
  polygons.filterMap (fun raw =>
    let label := normalizePolygonLabel raw.label
    if label = "" ∨ raw.points.length < 3 then none
    else some ⟨label, raw.points⟩)

/-- The error payload OpenAI failures carry (`err.code`, `err.requestID`,
`err.message`, after the `??`-chains coalesce them to strings). -/
structure EditErr where
  code : String
  requestId : String
  message : String

/-- Observable side effects of one pipeline run: successful intermediate
artifact persists (`saveTempIntermediateImage` / `saveTempIntermediateText`,
identified by step name) and invocations of the edit capability
(`fallback = true` for the `retryOnModerationBlocked` closure). -/
inductive Event
  | saveImage (step : String)
  | saveText (step : String)
  | editCall (passName : String) (fallback : Bool)
deriving DecidableEq, Repr

/-- The `BadRequestException` message of `runImageEditOrThrow`:
`[head, requestId?, code?, message?].filter(Boolean).join(' ')`, where the
head line is always present, so the join is the head followed by the
non-empty optional pieces each preceded by one space. -/
def editFailMsg (passName generationId : String) (err : EditErr) : String :=
  let requestId := Mask.jsTrimStr err.requestId
  let code := Mask.jsTrimStr err.code
  let msg := Mask.jsTrimStr err.message
  "OpenAI image edit failed during special-template pass=" ++ passName ++
    " (generationId=" ++ generationId ++ ")." ++
    (if requestId = "" then "" else " requestId=" ++ requestId ++ ".") ++
    (if code = "" then "" else " code=" ++ code ++ ".") ++
    (if msg = "" then "" else " message=" ++ msg)

/-- `runImageEditOrThrow`: run the edit; on an error whose (trimmed) code is
`moderation_blocked` and with a retry closure available, run the retry once —
its success is returned as the result, its failure replaces the error; any
surviving error is surfaced as the message above.  The event list records
which closures were invoked. -/
def runImageEditOrThrow {β : Type} (generationId passName : String)
    (fn : Except EditErr β) (retry : Option (Except EditErr β)) :
    List Event × Except String β :=
  match fn with
  | .ok b => ([.editCall passName false], .ok b)
  | .error err =>
    if Mask.jsTrimStr err.code = "moderation_blocked" then
      match retry with
      | some r =>
        match r with
        | .ok b => ([.editCall passName false, .editCall passName true], .ok b)
        | .error retryErr =>
          ([.editCall passName false, .editCall passName true],
            .error (editFailMsg passName generationId retryErr))
      | none =>
        ([.editCall passName false], .error (editFailMsg passName generationId err))
    else ([.editCall passName false], .error (editFailMsg passName generationId err))

/-- Oracles for the pipeline's external collaborators.  Storage writes are
keyed by step name (`saveTemp…` throws on filesystem failure — there is no
try/catch around those awaits in the source).  `dims` is sharp metadata
(`?? 0` for missing).  `edit` is `images.generateFromTemplate` keyed by pass
name and prompt (model/size/quality/moderation are fixed constants, the base
image and mask of a pass are determined by the run).  The prompt builders
are the opaque `buildSpecial…PassPrompt(template, userNotes)` functions,
keyed by the user-notes argument (the fallback prompt passes `null`). -/
structure PipelineEnv where
  storageOk : String → Bool
  dims : String → ℤ × ℤ
  edit : String → String → Except EditErr String
  bgPrompt : Option String → String
  mainPrompt : Option String → String
  textPrompt : Option String → String

/-- Arguments of `generateSpecialWithMasks` (paths and bytes are opaque
strings; `subjectAbsPathBySlotId` is the slot-id → path map). -/
structure SpecialArgs where
  generationId : String
  templateAbsPath : String
  polygons : List RawPolygon
  subjectAbsPathBySlotId : List (String × String)
  texts : List (String × String)
  userNotes : Option String

/-- `ensureSpecialBase1536x1024`: keep the template if it is already
1536×1024; otherwise resize (external) and persist the result as the
intermediate `base-1536x1024`, whose path becomes the new base. -/
def ensureSpecialBase1536x1024 (env : PipelineEnv) (templateAbsPath : String) :
    List Event × Except String String :=
  let wh := env.dims templateAbsPath
  if wh.1 = 1536 ∧ wh.2 = 1024 then ([], .ok templateAbsPath)
  else
    if env.storageOk "base-1536x1024" then
      ([.saveImage "base-1536x1024"], .ok "base-1536x1024")
    else ([], .error "storage: base-1536x1024")

/-- `readImageDimensionsOrThrow` (`!width || !height` on `?? 0` metadata). -/
def readImageDimensionsOrThrow (env : PipelineEnv) (absPath : String) :
    Except String (ℤ × ℤ) :=
  let wh := env.dims absPath
  if wh.1 = 0 ∨ wh.2 = 0 then
    .error ("Failed to read image dimensions for mask generation (" ++ absPath ++ ")")
  else .ok wh

/-- One masked pass (the source spells out the background and the main pass
with identical structure; the differing literals are parameters here):
read the base dimensions, build the mask restricted to the pass label,
persist mask and both prompts, run the edit with a moderation-blocked
fallback, persist the output, and return the new base path and bytes.
A failed storage write aborts with its error (no try/catch in source). -/
def maskedPass (env : PipelineEnv) (generationId : String)
    (normalizedPolygons : List Mask.MaskPolygon) (passName : String)
    (_slotAbs : String) (maskStep promptStep fallbackStep outStep : String)
    (promptBuilder : Option String → String) (userNotes : Option String)
    (currentBaseAbsPath : String) :
    List Event × Except String (String × String) :=
  match readImageDimensionsOrThrow env currentBaseAbsPath with
  | .error e => ([], .error e)
  | .ok (width, height) =>
    match Mask.buildEditMask width height normalizedPolygons
        (fun label => label == passName) with
    | none => ([], .error "Invalid mask dimensions")
    | some _maskBytes =>
      if env.storageOk maskStep then
        let prompt := promptBuilder userNotes
        let fallbackPrompt := promptBuilder none
        if env.storageOk promptStep then
          if env.storageOk fallbackStep then
            match runImageEditOrThrow generationId passName
                (env.edit passName prompt) (some (env.edit passName fallbackPrompt)) with
            | (evE, .error e) =>
              ([.saveImage maskStep, .saveText promptStep, .saveText fallbackStep]
                ++ evE, .error e)
            | (evE, .ok bytes) =>
              if env.storageOk outStep then
                ([.saveImage maskStep, .saveText promptStep, .saveText fallbackStep]
                  ++ evE ++ [.saveImage outStep], .ok (outStep, bytes))
              else
                ([.saveImage maskStep, .saveText promptStep, .saveText fallbackStep]
                  ++ evE, .error ("storage: " ++ outStep))
          else ([.saveImage maskStep, .saveText promptStep],
            .error ("storage: " ++ fallbackStep))
        else ([.saveImage maskStep], .error ("storage: " ++ promptStep))
      else ([], .error ("storage: " ++ maskStep))

/-- The final text pass: full-image edit, no mask, no fallback prompt
(`extractTwoLineText` feeds the opaque prompt builder); the output is
persisted as `pass-3-text` but the base path is not advanced. -/
def textPass (env : PipelineEnv) (generationId : String)
    (userNotes : Option String) : List Event × Except String String :=
  let prompt := env.textPrompt userNotes
  if env.storageOk "prompt-text" then
    match runImageEditOrThrow generationId "text" (env.edit "text" prompt) none with
    | (evE, .error e) => ([.saveText "prompt-text"] ++ evE, .error e)
    | (evE, .ok bytes) =>
      if env.storageOk "pass-3-text" then
        ([.saveText "prompt-text"] ++ evE ++ [.saveImage "pass-3-text"], .ok bytes)
      else ([.saveText "prompt-text"] ++ evE, .error "storage: pass-3-text")
  else ([], .error "storage: prompt-text")

/-- The `BadRequestException` raised when no pass produced bytes
(`[...].join(' ')` over the five fixed lines, with sorted uploaded slot ids
and the normalized labels). -/
def noApplicablePassMsg (slotIds labels : List String) : String :=
  "Special template masks were configured but no valid mask passes ran." ++
    " Uploaded slots: " ++
    (if slotIds.isEmpty then "(none)" else String.intercalate ", " slotIds) ++
    " Polygon labels found: " ++
    (if labels.isEmpty then "(none)" else String.intercalate ", " labels) ++
    " Expected at least one of: background, main, text:<key> (or text for all text)." ++
    " Tip: label your polygons exactly as above in the Advanced tab."

/-- `generateSpecialWithMasks`: resolve the slot inputs, normalize the base
image, then run the three passes in the fixed order
background → main → text, each guarded by its applicability condition;
fail with `noApplicablePassMsg` when no pass produced bytes. -/
def generateSpecialWithMasks (env : PipelineEnv) (args : SpecialArgs) :
    List Event × Except String String :=
  let bgAbs := args.subjectAbsPathBySlotId.lookup "background"
  let mainAbs := args.subjectAbsPathBySlotId.lookup "main"
  match ensureSpecialBase1536x1024 env args.templateAbsPath with
  | (ev0, .error e) => (ev0, .error e)
  | (ev0, .ok base0) =>
    let normalizedPolygons := normalizePolygons args.polygons
    let availableLabels := normalizedPolygons.map (fun p => p.label)
    let step1 : List Event × Except String (String × Option String) :=
      match bgAbs with
      | some slotAbs =>
        if availableLabels.contains "background" then
          match maskedPass env args.generationId normalizedPolygons "background"
              slotAbs "mask-background" "prompt-background"
              "prompt-background-fallback" "pass-1-background" env.bgPrompt
              args.userNotes base0 with
          | (ev, .error e) => (ev, .error e)
          | (ev, .ok (newBase, bytes)) => (ev, .ok (newBase, some bytes))
        else ([], .ok (base0, none))
      | none => ([], .ok (base0, none))
    match step1 with
    | (ev1, .error e) => (ev0 ++ ev1, .error e)
    | (ev1, .ok (base1, bytes1)) =>
      let step2 : List Event × Except String (String × Option String) :=
        match mainAbs with
        | some slotAbs =>
          if availableLabels.contains "main" then
            match maskedPass env args.generationId normalizedPolygons "main"
                slotAbs "mask-main" "prompt-main" "prompt-main-fallback"
                "pass-2-main" env.mainPrompt args.userNotes base1 with
            | (ev, .error e) => (ev, .error e)
            | (ev, .ok (newBase, bytes)) => (ev, .ok (newBase, some bytes))
          else ([], .ok (base1, bytes1))
        | none => ([], .ok (base1, bytes1))
      match step2 with
      | (ev2, .error e) => (ev0 ++ ev1 ++ ev2, .error e)
      | (ev2, .ok (_base2, bytes2)) =>
        let step3 : List Event × Except String (Option String) :=
          if args.texts.isEmpty then ([], .ok bytes2)
          else
            match textPass env args.generationId args.userNotes with
            | (ev, .error e) => (ev, .error e)
            | (ev, .ok bytes) => (ev, .ok (some bytes))
        match step3 with
        | (ev3, .error e) => (ev0 ++ ev1 ++ ev2 ++ ev3, .error e)
        | (ev3, .ok finalBytes) =>
          match finalBytes with
          | some bytes => (ev0 ++ ev1 ++ ev2 ++ ev3, .ok bytes)
          | none =>
            let slotIds := List.insertionSort (fun a b => a ≤ b)
              (args.subjectAbsPathBySlotId.map (fun kv => kv.1))
            (ev0 ++ ev1 ++ ev2 ++ ev3,
              .error (noApplicablePassMsg slotIds availableLabels))

/-- The pass names actually executed in a run, in order: one `editCall`
primary invocation per executed pass. -/
def executedPasses (events : List Event) : List String :=
  events.filterMap (fun e =>
    match e with
    | .editCall p false => some p
    | _ => none)

/-- An environment whose collaborators all succeed (constant oracles). -/
def okEnv : PipelineEnv where
  storageOk := fun _ => true
  dims := fun _ => (1536, 1024)
  edit := fun _ _ => .ok "edited-bytes"
  bgPrompt := fun _ => "bg-prompt"
  mainPrompt := fun _ => "main-prompt"
  textPrompt := fun _ => "text-prompt"

/-- Like `okEnv`, but persisting the background mask fails. -/
def maskFailEnv : PipelineEnv where
  storageOk := fun s => !(s == "mask-background")
  dims := fun _ => (1536, 1024)
  edit := fun _ _ => .ok "edited-bytes"
  bgPrompt := fun _ => "bg-prompt"
  mainPrompt := fun _ => "main-prompt"
  textPrompt := fun _ => "text-prompt"

def triPts : List (ℚ × ℚ) := [(0, 0), (100, 0), (50, 100)]

/-- Background, main and text inputs all present, with matching polygons. -/
def fullArgs : SpecialArgs where
  generationId := "gen-1"
  templateAbsPath := "template.png"
  polygons := [⟨"background", triPts⟩, ⟨"main", triPts⟩]
  subjectAbsPathBySlotId := [("background", "bg.png"), ("main", "main.png")]
  texts := [("title", "HELLO")]
  userNotes := none

/-- Background and text supplied, the main-subject input omitted. -/
def noMainArgs : SpecialArgs where
  generationId := "gen-1"
  templateAbsPath := "template.png"
  polygons := [⟨"background", triPts⟩, ⟨"main", triPts⟩]
  subjectAbsPathBySlotId := [("background", "bg.png")]
  texts := [("title", "HELLO")]
  userNotes := none

/-- A background image supplied, but the only polygon label matches nothing
and no text values are supplied. -/
def noMatchArgs : SpecialArgs where
  generationId := "gen-2"
  templateAbsPath := "template.png"
  polygons := [⟨"circle", triPts⟩]
  subjectAbsPathBySlotId := [("background", "bg.png")]
  texts := []
  userNotes := none

end Gen

namespace Probe

/-- An RGB pixel or target colour (8-bit channels as integers). -/
structure RGB where
  r : ℤ
  g : ℤ
  b : ℤ
deriving DecidableEq, Repr

/-- One hexadecimal digit (`[0-9a-fA-F]`). -/
def hexVal (c : Char) : Option ℤ :=
  if 48 ≤ c.toNat ∧ c.toNat ≤ 57 then some ((c.toNat : ℤ) - 48)
  else if 97 ≤ c.toNat ∧ c.toNat ≤ 102 then some ((c.toNat : ℤ) - 87)
  else if 65 ≤ c.toNat ∧ c.toNat ≤ 70 then some ((c.toNat : ℤ) - 55)
  else none

/-- `parseHexColor`: trim, accept `^#?([0-9a-fA-F]{6})$`, and parse the three
2-digit channel slices (`parseInt(…, 16)`). -/
def parseHexColor (hex : String) : Option RGB :=
  let cs0 := Mask.jsTrim hex.data
  let cs := match cs0 with
    | '#' :: rest => rest
    | l => l
  match cs with
  | [c0, c1, c2, c3, c4, c5] =>
    match hexVal c0, hexVal c1, hexVal c2, hexVal c3, hexVal c4, hexVal c5 with
    | some a, some b, some c, some d, some e, some f =>
      some ⟨16 * a + b, 16 * c + d, 16 * e + f⟩
    | _, _, _, _, _, _ => none
  | _ => none

/-- `isNearFillColor`: the three regimes (near-white target, saturated-red
target, generic Manhattan distance ≤ 160). -/
def isNearFillColor (px target : RGB) : Bool :=
  if 245 ≤ target.r ∧ 245 ≤ target.g ∧ 245 ≤ target.b then
    decide (210 ≤ px.r ∧ 210 ≤ px.g ∧ 210 ≤ px.b)
  else if 200 ≤ target.r ∧ target.g ≤ 80 ∧ target.b ≤ 80 then
    decide (150 ≤ px.r ∧ px.g ≤ 120 ∧ px.b ≤ 120 ∧ 40 ≤ px.r - max px.g px.b)
  else
    decide (|px.r - target.r| + |px.g - target.g| + |px.b - target.b| ≤ 160)

/-- Matching pixels of one row across `[x0, x1)` (reads `data[idx] ?? 0`;
the buffer is total here).  The source's early `return y` once `hits`
reaches the threshold selects a row iff its total count reaches it. -/
def rowHits (data : ℤ → ℤ) (channels x0 x1 rowBase : ℤ) (target : RGB) : ℕ :=
  ((List.range (x1 - x0).toNat).filter (fun dx =>
    let idx := rowBase + (x0 + (dx : ℤ)) * channels
    isNearFillColor ⟨data idx, data (idx + 1), data (idx + 2)⟩ target)).length

/-- `findFirstMatchingRow`: scan rows top-down (`direction = 'top'`) or
bottom-up, returning the first row whose match count reaches
`minHits = max(20, Math.floor(scanWidth * 0.006))` (the float constant
`0.006` is `3/500`; both round the same way on the scan widths here). -/
def findFirstMatchingRow (data : ℤ → ℤ) (width height channels x0 x1 : ℤ)
    (fromTop : Bool) (target : RGB) : Option ℤ :=
  let rowStride := width * channels
  let scanWidth := max 1 (x1 - x0)
  let minHits : ℤ := max 20 ⌊(scanWidth : ℚ) * (3 / 500)⌋
  let rows := (List.range height.toNat).map (Int.ofNat)
  (if fromTop then rows else rows.reverse).find?
    (fun y => decide (minHits ≤ (rowHits data channels x0 x1 (y * rowStride) target : ℤ)))

/-- `round1(n) = Math.round(n * 10) / 10`. -/
def round1 (n : ℚ) : ℚ := ((round (n * 10) : ℤ) : ℚ) / 10

/-- The tail of the refinement: the guard
`topY === null || bottomY === null || !(topY >= 0 && bottomY > topY)` returns
the spec unchanged, otherwise the rounded percentages are spliced into the
block. -/
def finishRefine (height : ℤ) (topY bottomY : Option ℤ) : Option (ℚ × ℚ × ℚ) :=
  match topY, bottomY with
  | some ty, some yb =>
    if 0 ≤ ty ∧ ty < yb then
      let topPct := round1 ((ty : ℚ) / (height : ℚ) * 100)
      let bottomPct := round1 ((yb : ℚ) / (height : ℚ) * 100)
      some (topPct, bottomPct, round1 (bottomPct - topPct))
    else none
  | _, _ => none

/-- `refineReconstructionSpecTextBlockExtentsFromPixels`, starting from the
decoded raw pixels.  Inputs: the pixel buffer with its dimensions and
channel count, the analysis-provided `block.widthPct` (as coalesced by
`toFiniteNumber`), and the `fillColor` strings of `textRegions.regions`.
Returns `some (topPct, bottomPct, heightPct)` when the spec is refined, and
`none` when the original spec is returned unchanged (empty region list,
degenerate dimensions, unparseable edge colour, no matching row, or a
non-increasing row pair).  The earlier structural guards (missing
`textRegions`/`block` objects, data-URL decode failure) also return the
spec unchanged. -/
def refineTextBlockExtents (data : ℤ → ℤ) (width height channels : ℤ)
    (widthPctOpt : Option ℚ) (regions : List String) : Option (ℚ × ℚ × ℚ) :=
  if regions.isEmpty then none
  else if width = 0 ∨ height = 0 ∨ channels = 0 ∨ channels < 3 then none
  else
    let validWidth := match widthPctOpt with
      | some wp => decide (0 < wp ∧ wp ≤ 100)
      | none => false
    let leftPct : ℚ := match widthPctOpt with
      | some wp => if 0 < wp ∧ wp ≤ 100 then (100 - wp) / 2 else 20
      | none => 20
    let rightPct : ℚ := if validWidth then 100 - leftPct else 80
    let x0 := Mask.clampInt ⌊leftPct / 100 * (width : ℚ)⌋ 0 (width - 1)
    let x1Raw := Mask.clampInt ⌈rightPct / 100 * (width : ℚ)⌉ (x0 + 1) width
    let x1 := Mask.clampInt ⌊(x1Raw : ℚ) - ((x1Raw : ℚ) - (x0 : ℚ)) * (3 / 20)⌋
      (x0 + 1) width
    let topColor := parseHexColor (regions.headD "")
    let bottomColor := parseHexColor (regions.getLastD "")
    let topY := match topColor with
      | some t => findFirstMatchingRow data width height channels x0 x1 true t
      | none => none
    let bottomY := match bottomColor with
      | some t => findFirstMatchingRow data width height channels x0 x1 false t
      | none => none
    finishRefine height topY bottomY

/-- The 40×1001 3-channel probe image used below: row 500 is white, row 501
is pure red (the red channel of each 3-byte pixel), all other rows black. -/
def probeImage : ℤ → ℤ :=
  fun i =>
    let y := i / 120
    if y = 500 then 255
    else if y = 501 then (if i % 3 = 0 then 255 else 0)
    else 0

/-- A 40×4 3-channel probe image: row 0 white, row 3 pure red, rows 1–2
black. -/
def smallProbeImage : ℤ → ℤ :=
  fun i =>
    let y := i / 120
    if y = 0 then 255
    else if y = 3 then (if i % 3 = 0 then 255 else 0)
    else 0

end Probe

namespace Mask

/-!  Basic facts about `clampInt` and the vertex folds. -/

theorem clampInt_le (n lo hi : ℤ) : clampInt n lo hi ≤ hi := min_le_left _ _

theorem le_clampInt (n lo hi : ℤ) (h : lo ≤ hi) : lo ≤ clampInt n lo hi :=
  le_min h (le_max_left _ _)

theorem clampInt_eq_self (n lo hi : ℤ) (h1 : lo ≤ n) (h2 : n ≤ hi) :
    clampInt n lo hi = n := by
  unfold clampInt; omega

theorem foldl_min_le_init (l : List Pt) (a : ℤ) :
    l.foldl (fun m q => min m q.y) a ≤ a := by
  induction l generalizing a with
  | nil => simp
  | cons q l ih => exact le_trans (ih (min a q.y)) (min_le_left _ _)

theorem foldl_min_le_mem (l : List Pt) (a : ℤ) (q : Pt) (hq : q ∈ l) :
    l.foldl (fun m r => min m r.y) a ≤ q.y := by
  induction l generalizing a with
  | nil => cases hq
  | cons r l ih =>
    rcases List.mem_cons.mp hq with h | h
    · subst h
      exact le_trans (foldl_min_le_init l (min a q.y)) (min_le_right _ _)
    · exact ih (min a r.y) h

theorem le_foldl_min (l : List Pt) (a m0 : ℤ) (ha : m0 ≤ a)
    (hl : ∀ q ∈ l, m0 ≤ q.y) :
    m0 ≤ l.foldl (fun m r => min m r.y) a := by
  induction l generalizing a with
  | nil => simpa using ha
  | cons r l ih =>
    exact ih (min a r.y) (le_min ha (hl r (by simp)))
      (fun q hq => hl q (by simp [hq]))

theorem init_le_foldl_max (l : List Pt) (a : ℤ) :
    a ≤ l.foldl (fun m q => max m q.y) a := by
  induction l generalizing a with
  | nil => simp
  | cons q l ih => exact le_trans (le_max_left _ _) (ih (max a q.y))

theorem mem_le_foldl_max (l : List Pt) (a : ℤ) (q : Pt) (hq : q ∈ l) :
    q.y ≤ l.foldl (fun m r => max m r.y) a := by
  induction l generalizing a with
  | nil => cases hq
  | cons r l ih =>
    rcases List.mem_cons.mp hq with h | h
    · subst h
      exact le_trans (le_max_right _ _) (init_le_foldl_max l (max a q.y))
    · exact ih (max a r.y) h

theorem foldl_max_le (l : List Pt) (a m0 : ℤ) (ha : a ≤ m0)
    (hl : ∀ q ∈ l, q.y ≤ m0) :
    l.foldl (fun m r => max m r.y) a ≤ m0 := by
  induction l generalizing a with
  | nil => simpa using ha
  | cons r l ih =>
    exact ih (max a r.y) (max_le ha (hl r (by simp)))
      (fun q hq => hl q (by simp [hq]))

/-!  Byte-index decoding for in-range pixels. -/

theorem alphaIdx_mod_four (w x y : ℤ) : alphaIdx w x y % 4 = 3 := by
  unfold alphaIdx; omega

theorem alphaIdx_div_mod (w x y : ℤ) (hw : 0 < w) (hx0 : 0 ≤ x) (hx1 : x < w)
    (hy0 : 0 ≤ y) :
    alphaIdx w x y / 4 % w = x ∧ alphaIdx w x y / 4 / w = y := by
  have h4 : alphaIdx w x y / 4 = y * w + x := by unfold alphaIdx; omega
  rw [h4]
  constructor
  · rw [add_comm, mul_comm, Int.add_mul_emod_self_left, Int.emod_eq_of_lt hx0 hx1]
  · rw [add_comm, mul_comm, Int.add_mul_ediv_left _ _ (by omega : w ≠ 0),
      Int.ediv_eq_zero_of_lt hx0 hx1, zero_add]

theorem alphaIdx_in_range (w h x y : ℤ) (hw : 0 < w) (hh : 0 < h)
    (hx0 : 0 ≤ x) (hx1 : x < w) (hy0 : 0 ≤ y) (hy1 : y < h) :
    0 ≤ alphaIdx w x y ∧ alphaIdx w x y < w * h * 4 := by
  unfold alphaIdx
  have h1 : 0 ≤ y * w + x := by positivity
  have h2 : y * w + x ≤ (h - 1) * w + (w - 1) := by
    have := mul_le_mul_of_nonneg_right (by omega : y ≤ h - 1) (by omega : (0:ℤ) ≤ w)
    omega
  have h3 : (h - 1) * w + (w - 1) = w * h - 1 := by ring
  omega

theorem initMaskBuffer_alpha (w h x y : ℤ) (hw : 0 < w) (hh : 0 < h)
    (hx0 : 0 ≤ x) (hx1 : x < w) (hy0 : 0 ≤ y) (hy1 : y < h) :
    initMaskBuffer w h (alphaIdx w x y) = 255 := by
  have hr := alphaIdx_in_range w h x y hw hh hx0 hx1 hy0 hy1
  have hm := alphaIdx_mod_four w x y
  simp only [initMaskBuffer]
  rw [if_pos ⟨hr.1, hr.2, hm⟩]

/-!  The crossing count of any closed polygon at any scanline is even: an
edge is collected iff the predicate `v.y ≤ y` changes across it, and a
boolean changes an even number of times around a cycle. -/

theorem edgeCross_isSome_iff (y : ℤ) (a b : Pt) :
    (edgeCross y a b).isSome = true ↔
      ((a.y ≤ y ∧ y < b.y) ∨ (b.y ≤ y ∧ y < a.y)) := by
  unfold edgeCross
  split_ifs with h1 h2 <;> simp <;> omega

theorem countP_filterMap {α β : Type} (f : α → Option β) (q : β → Bool)
    (l : List α) :
    (l.filterMap f).countP q =
      l.countP (fun a => ((f a).map q).getD false) := by
  induction l with
  | nil => simp
  | cons a l ih =>
    rw [List.filterMap_cons]
    cases hfa : f a with
    | none => simp [List.countP_cons, hfa, ih]
    | some b => simp [List.countP_cons, hfa, ih]

theorem length_filterMap_eq_countP {α β : Type} (f : α → Option β) (l : List α) :
    (l.filterMap f).length = l.countP (fun a => (f a).isSome) := by
  induction l with
  | nil => simp
  | cons a l ih =>
    rw [List.filterMap_cons]
    cases hfa : f a with
    | none => simp [List.countP_cons, hfa, ih]
    | some b => simp [List.countP_cons, hfa, ih]

/-- Along a path `a, l…, t`, the number of adjacent boolean flips of `f` has
the parity of `f a ≠ f t`. -/
theorem countP_path_flips (f : Pt → Bool) :
    ∀ (l : List Pt) (a t : Pt),
      (((a :: l).zip (l ++ [t])).countP (fun e => f e.1 != f e.2)) % 2 =
        (if f a != f t then 1 else 0)
  | [], a, t => by
    rcases hab : f a <;> rcases htt : f t <;> simp [List.countP_cons, hab, htt]
  | b :: l, a, t => by
    have ih := countP_path_flips f l b t
    simp only [List.zip_cons_cons, List.cons_append, List.countP_cons] at *
    rcases hab : f a <;> rcases hbb : f b <;> rcases htt : f t <;>
      simp [hab, hbb, htt] at ih ⊢ <;> omega

theorem countP_cycle_flips_even (f : Pt → Bool) (pts : List Pt) :
    ((edges pts).countP (fun e => f e.1 != f e.2)) % 2 = 0 := by
  cases pts with
  | nil => simp [edges]
  | cons p rest =>
    have h := countP_path_flips f rest p p
    simp only [edges, List.tail_cons]
    simpa using h

theorem length_crossings_even (pts : List Pt) (y : ℤ) :
    (crossings pts y).length % 2 = 0 := by
  unfold crossings
  rw [length_filterMap_eq_countP]
  have hbool : ∀ e ∈ edges pts,
      ((edgeCross y e.1 e.2).isSome : Bool) =
        ((fun v : Pt => decide (v.y ≤ y)) e.1 != (fun v : Pt => decide (v.y ≤ y)) e.2) := by
    intro e _
    by_cases hP : ((e.1.y ≤ y ∧ y < e.2.y) ∨ (e.2.y ≤ y ∧ y < e.1.y))
    · rw [(edgeCross_isSome_iff y e.1 e.2).mpr hP]
      rcases h1 : decide (e.1.y ≤ y) <;> rcases h2 : decide (e.2.y ≤ y) <;>
        simp at h1 h2 ⊢ <;> omega
    · have hno : ((edgeCross y e.1 e.2).isSome : Bool) = false := by
        rcases h : ((edgeCross y e.1 e.2).isSome : Bool)
        · rfl
        · exact absurd ((edgeCross_isSome_iff y e.1 e.2).mp h) hP
      rw [hno]
      rcases h1 : decide (e.1.y ≤ y) <;> rcases h2 : decide (e.2.y ≤ y) <;>
        simp at h1 h2 ⊢ <;> omega
  rw [List.countP_congr (fun e he => by rw [hbool e he])]
  exact countP_cycle_flips_even (fun v : Pt => decide (v.y ≤ y)) pts

/-!  Relating the spec-side ray test to the collected intersections. -/

theorem raySegCross_eq (p a b : Pt) :
    raySegCross p a b =
      ((edgeCross p.y a b).map (fun c => decide ((p.x : ℚ) < c))).getD false := by
  unfold raySegCross edgeCross
  split_ifs with h1 h2
  · exact decide_eq_false_iff_not.mpr (by rintro ⟨hbr, -⟩; omega)
  · exact decide_eq_false_iff_not.mpr
      (by rintro ⟨hbr, -⟩; rcases h2 with h2 | h2 <;> omega)
  · simp only [Option.map_some', Option.getD_some]
    rw [decide_eq_decide]
    constructor
    · rintro ⟨-, hlt⟩; exact hlt
    · intro hlt
      exact ⟨by omega, hlt⟩

theorem rayCrossCount_eq_countP (pts : List Pt) (p : Pt) :
    rayCrossCount pts p =
      (crossings pts p.y).countP (fun c => decide ((p.x : ℚ) < c)) := by
  unfold rayCrossCount crossings
  rw [← List.countP_eq_length_filter, countP_filterMap]
  exact List.countP_congr (fun e _ => by rw [raySegCross_eq p e.1 e.2])

/-!  Where an intersection value can lie. -/

theorem mem_edges (pts : List Pt) (e : Pt × Pt) (he : e ∈ edges pts) :
    e.1 ∈ pts ∧ e.2 ∈ pts := by
  cases pts with
  | nil => cases he
  | cons p rest =>
    simp only [edges, List.tail_cons] at he
    constructor
    · exact List.mem_zip he |>.1
    · have h2 := List.mem_zip he |>.2
      rcases List.mem_append.mp h2 with h | h
      · exact List.mem_cons_of_mem _ h
      · simp at h
        simp [h]

/-- An intersection collected for scanline `y` brackets `y` and lies between
the edge endpoints' abscissae; and the crossing point is on the segment. -/
theorem edgeCross_between (y : ℤ) (a b : Pt) (c : ℚ)
    (h : edgeCross y a b = some c) :
    (min a.y b.y ≤ y ∧ y < max a.y b.y) ∧
    min (a.x : ℚ) (b.x : ℚ) ≤ c ∧ c ≤ max (a.x : ℚ) (b.x : ℚ) ∧
    ((b.x : ℚ) - (a.x : ℚ)) * ((y : ℚ) - (a.y : ℚ)) =
      ((b.y : ℚ) - (a.y : ℚ)) * (c - (a.x : ℚ)) := by
  unfold edgeCross at h
  split_ifs at h with h1 h2
  have hbr : min a.y b.y ≤ y ∧ y < max a.y b.y := by omega
  have hyne : ((b.y : ℚ) - (a.y : ℚ)) ≠ 0 := by
    intro hzero
    have hba : (b.y : ℚ) = (a.y : ℚ) := by linarith
    exact h1 (by exact_mod_cast hba.symm)
  set t : ℚ := ((y : ℚ) - (a.y : ℚ)) / ((b.y : ℚ) - (a.y : ℚ)) with ht
  have hc : c = (a.x : ℚ) + t * ((b.x : ℚ) - (a.x : ℚ)) := (Option.some.inj h).symm
  have ht01 : 0 ≤ t ∧ t ≤ 1 := by
    rcases (by omega : a.y < b.y ∨ b.y < a.y) with hlt | hlt
    · have hay : (a.y : ℚ) ≤ (y : ℚ) := by exact_mod_cast (by omega : a.y ≤ y)
      have hby : (y : ℚ) < (b.y : ℚ) := by exact_mod_cast (by omega : y < b.y)
      constructor
      · exact div_nonneg (by linarith) (by linarith)
      · rw [ht, div_le_one (by linarith)]
        linarith
    · have hay : (y : ℚ) < (a.y : ℚ) := by exact_mod_cast (by omega : y < a.y)
      have hby : (b.y : ℚ) ≤ (y : ℚ) := by exact_mod_cast (by omega : b.y ≤ y)
      have hrw : t = ((a.y : ℚ) - (y : ℚ)) / ((a.y : ℚ) - (b.y : ℚ)) := by
        rw [ht, ← neg_div_neg_eq]
        ring_nf
      constructor
      · rw [hrw]
        exact div_nonneg (by linarith) (by linarith)
      · rw [hrw, div_le_one (by linarith)]
        linarith
  refine ⟨hbr, ?_, ?_, ?_⟩
  · rcases le_total (a.x : ℚ) (b.x : ℚ) with hab | hab
    · rw [min_eq_left hab, hc]
      nlinarith [ht01.1, ht01.2]
    · rw [min_eq_right hab, hc]
      nlinarith [ht01.1, ht01.2]
  · rcases le_total (a.x : ℚ) (b.x : ℚ) with hab | hab
    · rw [max_eq_right hab, hc]
      nlinarith [ht01.1, ht01.2]
    · rw [max_eq_left hab, hc]
      nlinarith [ht01.1, ht01.2]
  · rw [hc, ht]
    field_simp
    ring

/-- A crossing value that equals the pixel abscissa exactly puts the pixel
on the polygon boundary. -/
theorem onBoundary_of_mem_crossings (pts : List Pt) (x y : ℤ)
    (hmem : (x : ℚ) ∈ crossings pts y) : onBoundary pts ⟨x, y⟩ = true := by
  obtain ⟨e, he, hcr⟩ := List.mem_filterMap.mp hmem
  obtain ⟨hbr, hminx, hmaxx, hcol⟩ := edgeCross_between y e.1 e.2 _ hcr
  have hminx' : min e.1.x e.2.x ≤ x := by
    have : ((min e.1.x e.2.x : ℤ) : ℚ) ≤ (x : ℚ) := by
      push_cast
      exact hminx
    exact_mod_cast this
  have hmaxx' : x ≤ max e.1.x e.2.x := by
    have : ((x : ℤ) : ℚ) ≤ ((max e.1.x e.2.x : ℤ) : ℚ) := by
      push_cast
      exact hmaxx
    exact_mod_cast this
  have hcol' : (e.2.x - e.1.x) * (y - e.1.y) = (e.2.y - e.1.y) * (x - e.1.x) := by
    have : ((e.2.x - e.1.x) * (y - e.1.y) : ℤ) = ((e.2.y - e.1.y) * (x - e.1.x) : ℤ) ↔
        (((e.2.x - e.1.x) * (y - e.1.y) : ℤ) : ℚ) = (((e.2.y - e.1.y) * (x - e.1.x) : ℤ) : ℚ) :=
      (Int.cast_inj (α := ℚ)).symm
    rw [this]
    push_cast
    linarith [hcol]
  have hseg : onSeg ⟨x, y⟩ e.1 e.2 = true := by
    unfold onSeg
    exact decide_eq_true ⟨hcol', hminx', hmaxx',
      (show min e.1.y e.2.y ≤ y by omega), (show y ≤ max e.1.y e.2.y by omega)⟩
  unfold onBoundary
  rw [List.any_eq_true]
  exact ⟨e, he, hseg⟩

/-- With all vertex abscissae inside `[0, width-1]`, so is every crossing. -/
theorem crossings_bounds (pts : List Pt) (y : ℤ) (w : ℤ)
    (hbnd : ∀ v ∈ pts, 0 ≤ v.x ∧ v.x ≤ w - 1) (c : ℚ)
    (hmem : c ∈ crossings pts y) : 0 ≤ c ∧ c ≤ ((w : ℚ) - 1) := by
  obtain ⟨e, he, hcr⟩ := List.mem_filterMap.mp hmem
  obtain ⟨-, hminx, hmaxx, -⟩ := edgeCross_between y e.1 e.2 _ hcr
  obtain ⟨h1, h2⟩ := mem_edges pts e he
  obtain ⟨h1a, h1b⟩ := hbnd e.1 h1
  obtain ⟨h2a, h2b⟩ := hbnd e.2 h2
  have hc1 : (0 : ℚ) ≤ min (e.1.x : ℚ) (e.2.x : ℚ) :=
    le_min (by exact_mod_cast h1a) (by exact_mod_cast h2a)
  have hc2 : max (e.1.x : ℚ) (e.2.x : ℚ) ≤ (w : ℚ) - 1 := by
    have hb1 : (e.1.x : ℚ) ≤ (w : ℚ) - 1 := by exact_mod_cast h1b
    have hb2 : (e.2.x : ℚ) ≤ (w : ℚ) - 1 := by exact_mod_cast h2b
    exact max_le hb1 hb2
  exact ⟨le_trans hc1 hminx, le_trans hmaxx hc2⟩

/-- A nonempty crossings list pins the scanline inside the clamped vertical
span of the polygon. -/
theorem scanline_in_span (pts : List Pt) (y : ℤ) (h : ℤ) (hy0 : 0 ≤ y)
    (hy1 : y < h) (c : ℚ) (hmem : c ∈ crossings pts y) :
    polyMinY h pts ≤ y ∧ y ≤ polyMaxY h pts := by
  obtain ⟨e, he, hcr⟩ := List.mem_filterMap.mp hmem
  obtain ⟨⟨hbr1, hbr2⟩, -, -, -⟩ := edgeCross_between y e.1 e.2 _ hcr
  obtain ⟨h1, h2⟩ := mem_edges pts e he
  cases pts with
  | nil => cases h1
  | cons p rest =>
    have hminle : ∀ v ∈ (p :: rest : List Pt),
        rest.foldl (fun m q => min m q.y) p.y ≤ v.y := by
      intro v hv
      rcases List.mem_cons.mp hv with hv | hv
      · subst hv
        exact foldl_min_le_init rest v.y
      · exact foldl_min_le_mem rest p.y v hv
    have hmaxge : ∀ v ∈ (p :: rest : List Pt),
        v.y ≤ rest.foldl (fun m q => max m q.y) p.y := by
      intro v hv
      rcases List.mem_cons.mp hv with hv | hv
      · subst hv
        exact init_le_foldl_max rest v.y
      · exact mem_le_foldl_max rest p.y v hv
    constructor
    · have hle : rest.foldl (fun m q => min m q.y) p.y ≤ y :=
        le_trans (le_min (hminle e.1 h1) (hminle e.2 h2)) hbr1
      show polyMinY h (p :: rest) ≤ y
      rw [show polyMinY h (p :: rest) =
        clampInt (rest.foldl (fun m q => min m q.y) p.y) 0 (h - 1) from rfl]
      unfold clampInt
      omega
    · have hle : y < rest.foldl (fun m q => max m q.y) p.y := by
        have hm := max_le (hmaxge e.1 h1) (hmaxge e.2 h2)
        omega
      show y ≤ polyMaxY h (p :: rest)
      rw [show polyMaxY h (p :: rest) =
        clampInt (rest.foldl (fun m q => max m q.y) p.y) 0 (h - 1) from rfl]
      unfold clampInt
      omega

/-!  The parity ↔ span characterisation on a sorted even-length list. -/

theorem mem_of_mem_spanPairs : ∀ (s : List ℚ) (pr : ℚ × ℚ),
    pr ∈ spanPairs s → pr.1 ∈ s ∧ pr.2 ∈ s
  | [], pr, h => by simp [spanPairs] at h
  | [a], pr, h => by simp [spanPairs] at h
  | a :: b :: rest, pr, h => by
    rw [show spanPairs (a :: b :: rest) = (a, b) :: spanPairs rest from rfl] at h
    rcases List.mem_cons.mp h with h | h
    · subst h
      exact ⟨by simp, by simp⟩
    · have := mem_of_mem_spanPairs rest pr h
      exact ⟨by simp [this.1], by simp [this.2]⟩

/-- On a sorted even-length list not containing the integer abscissa `x`,
"odd count of intersections to the right of `x`" is exactly "`x` lies
strictly inside one of the successive pairs". -/
theorem parity_iff_span (x : ℚ) : ∀ (s : List ℚ), s.Sorted (· ≤ ·) → x ∉ s →
    s.length % 2 = 0 →
    ((s.countP (fun c => decide (x < c))) % 2 = 1 ↔
      ∃ pr ∈ spanPairs s, pr.1 < x ∧ x < pr.2)
  | [] => by
    intro _ _ _
    simp [spanPairs]
  | [a] => by
    intro _ _ hlen
    simp at hlen
  | a :: b :: rest => by
    intro hs hx he
    have hs1 := List.sorted_cons.mp hs
    have hs2 := List.sorted_cons.mp hs1.2
    have hab : a ≤ b := hs1.1 b (by simp)
    have hbrest : ∀ c ∈ rest, b ≤ c := hs2.1
    have hxa : x ≠ a := by intro hc; exact hx (by simp [hc])
    have hxb : x ≠ b := by intro hc; exact hx (by simp [hc])
    have hxrest : x ∉ rest := fun hc => hx (by simp [hc])
    have herest : rest.length % 2 = 0 := by
      simp only [List.length_cons] at he
      omega
    have hpairs : spanPairs (a :: b :: rest) = (a, b) :: spanPairs rest := rfl
    have hcount : (a :: b :: rest).countP (fun c => decide (x < c)) =
        rest.countP (fun c => decide (x < c)) +
          ((if x < b then 1 else 0) + (if x < a then 1 else 0)) := by
      rw [List.countP_cons, List.countP_cons]
      rcases h1 : decide (x < a) <;> rcases h2 : decide (x < b) <;>
        simp at h1 h2 <;> simp [h1, h2] <;> omega
    rcases lt_trichotomy x a with hxa2 | hxa2 | hxa2
    · -- x left of everything: even count, no span contains x
      have hall : ∀ c ∈ rest, x < c := fun c hc =>
        lt_of_lt_of_le hxa2 (le_trans hab (hbrest c hc))
      have hcr : rest.countP (fun c => decide (x < c)) = rest.length :=
        List.countP_eq_length.mpr (fun c hc => decide_eq_true (hall c hc))
      constructor
      · intro hodd
        rw [hcount, hcr, if_pos (lt_of_lt_of_le hxa2 hab), if_pos hxa2] at hodd
        omega
      · rintro ⟨pr, hpr, hpr1, hpr2⟩
        rw [hpairs] at hpr
        rcases List.mem_cons.mp hpr with h | h
        · subst h
          exact absurd hpr1 (by simp; linarith)
        · have hm := mem_of_mem_spanPairs rest pr h
          exact absurd hpr1 (by simp; exact le_of_lt (hall pr.1 hm.1))
    · exact absurd hxa2 hxa
    · rcases lt_trichotomy x b with hxb2 | hxb2 | hxb2
      · -- a < x < b: odd count, the pair (a, b) contains x
        have hall : ∀ c ∈ rest, x < c := fun c hc =>
          lt_of_lt_of_le hxb2 (hbrest c hc)
        have hcr : rest.countP (fun c => decide (x < c)) = rest.length :=
          List.countP_eq_length.mpr (fun c hc => decide_eq_true (hall c hc))
        constructor
        · intro _
          exact ⟨(a, b), by rw [hpairs]; simp, hxa2, hxb2⟩
        · intro _
          rw [hcount, hcr, if_pos hxb2, if_neg (by linarith)]
          omega
      · exact absurd hxb2 hxb
      · -- x right of a and b: reduces to the tail
        have hih := parity_iff_span x rest hs2.2 hxrest herest
        rw [hcount, if_neg (by linarith), if_neg (by linarith), hpairs]
        constructor
        · intro hodd
          obtain ⟨pr, hpr, h1, h2⟩ := hih.mp (by omega)
          exact ⟨pr, List.mem_cons_of_mem _ hpr, h1, h2⟩
        · rintro ⟨pr, hpr, h1, h2⟩
          rcases List.mem_cons.mp hpr with heq | hmem
          · subst heq
            exact absurd h2 (not_lt.mpr hxb2.le)
          · have := hih.mpr ⟨pr, hmem, h1, h2⟩
            omega

/-!  Per-polygon correctness of the scanline fill. -/

theorem sortedCrossings_perm (pts : List Pt) (y : ℤ) :
    (sortedCrossings pts y).Perm (crossings pts y) :=
  List.perm_insertionSort _ _

theorem sortedCrossings_sorted (pts : List Pt) (y : ℤ) :
    (sortedCrossings pts y).Sorted (· ≤ ·) :=
  List.sorted_insertionSort _ _

theorem polygonPts_bounds (w h : ℤ) (hw : 0 < w) (hh : 0 < h) (p : MaskPolygon) :
    ∀ v ∈ polygonPts w h p, (0 ≤ v.x ∧ v.x ≤ w - 1) ∧ (0 ≤ v.y ∧ v.y ≤ h - 1) := by
  intro v hv
  obtain ⟨q, -, hq⟩ := List.mem_map.mp hv
  subst hq
  refine ⟨⟨le_clampInt _ _ _ (by omega), clampInt_le _ _ _⟩,
    ⟨le_clampInt _ _ _ (by omega), clampInt_le _ _ _⟩⟩

/-- A pixel whose centre is strictly inside the polygon (even–odd rule) is
filled by the scanline algorithm. -/
theorem fillsPixel_of_strictlyInside (w h : ℤ) (pts : List Pt) (x y : ℤ)
    (hx0 : 0 ≤ x) (hx1 : x < w) (hy0 : 0 ≤ y) (hy1 : y < h)
    (hin : strictlyInside pts ⟨x, y⟩) :
    fillsPixel w h pts x y = true := by
  obtain ⟨hb, hodd⟩ := hin
  have hxnot : (x : ℚ) ∉ crossings pts y := by
    intro hmem
    rw [onBoundary_of_mem_crossings pts x y hmem] at hb
    cases hb
  have hcnt : rayCrossCount pts ⟨x, y⟩ =
      (crossings pts y).countP (fun c => decide ((x : ℚ) < c)) :=
    rayCrossCount_eq_countP pts ⟨x, y⟩
  have hperm := sortedCrossings_perm pts y
  have hcnt2 : (sortedCrossings pts y).countP (fun c => decide ((x : ℚ) < c)) =
      (crossings pts y).countP (fun c => decide ((x : ℚ) < c)) :=
    hperm.countP_eq _
  have hlen : (sortedCrossings pts y).length = (crossings pts y).length :=
    hperm.length_eq
  have heven : (sortedCrossings pts y).length % 2 = 0 := by
    rw [hlen]; exact length_crossings_even pts y
  have hxnot2 : (x : ℚ) ∉ sortedCrossings pts y :=
    fun hc => hxnot (hperm.mem_iff.mp hc)
  have hoddS : (sortedCrossings pts y).countP (fun c => decide ((x : ℚ) < c)) % 2 = 1 := by
    rw [hcnt2, ← hcnt]
    exact hodd
  obtain ⟨pr, hpr, hpr1, hpr2⟩ :=
    (parity_iff_span (x : ℚ) (sortedCrossings pts y) (sortedCrossings_sorted pts y)
      hxnot2 heven).mp hoddS
  -- some crossing exists, pinning the scanline inside the vertical span
  have hcr1 : pr.1 ∈ crossings pts y :=
    hperm.mem_iff.mp (mem_of_mem_spanPairs _ pr hpr).1
  have hspan := scanline_in_span pts y h hy0 hy1 pr.1 hcr1
  have hlen2 : 2 ≤ (sortedCrossings pts y).length := by
    have h1 : 0 < (sortedCrossings pts y).length :=
      List.length_pos.mpr (fun hnil => by
        rw [hnil] at hpr
        simp [spanPairs] at hpr)
    omega
  have hIn : inSpan w x pr = true := by
    unfold inSpan
    apply decide_eq_true
    constructor
    · have hceil : ⌈pr.1⌉ ≤ x := Int.ceil_le.mpr (le_of_lt hpr1)
      unfold clampInt
      omega
    · have hfloor : x ≤ ⌊pr.2⌋ := Int.le_floor.mpr (le_of_lt hpr2)
      unfold clampInt
      omega
  unfold fillsPixel
  rw [decide_eq_true hspan.1, decide_eq_true hspan.2, decide_eq_true hlen2]
  simp only [Bool.true_and]
  rw [List.any_eq_true]
  exact ⟨pr, hpr, hIn⟩

/-- A pixel whose centre is strictly outside the polygon (even–odd rule) is
left untouched, provided the vertex abscissae are within the raster (which
`polygonPts` guarantees). -/
theorem not_fillsPixel_of_strictlyOutside (w h : ℤ) (pts : List Pt) (x y : ℤ)
    (hx0 : 0 ≤ x) (hx1 : x < w) (hy0 : 0 ≤ y) (hy1 : y < h)
    (hbnd : ∀ v ∈ pts, 0 ≤ v.x ∧ v.x ≤ w - 1)
    (hout : strictlyOutside pts ⟨x, y⟩) :
    fillsPixel w h pts x y = false := by
  obtain ⟨hb, heven0⟩ := hout
  rcases hfill : fillsPixel w h pts x y with _ | _
  · rfl
  exfalso
  unfold fillsPixel at hfill
  rw [Bool.and_eq_true, Bool.and_eq_true, Bool.and_eq_true] at hfill
  obtain ⟨⟨⟨-, -⟩, -⟩, hany⟩ := hfill
  obtain ⟨pr, hpr, hIn⟩ := List.any_eq_true.mp hany
  have hperm := sortedCrossings_perm pts y
  have hxnot : (x : ℚ) ∉ crossings pts y := by
    intro hmem
    rw [onBoundary_of_mem_crossings pts x y hmem] at hb
    cases hb
  have hxnot2 : (x : ℚ) ∉ sortedCrossings pts y :=
    fun hc => hxnot (hperm.mem_iff.mp hc)
  have hmemS := mem_of_mem_spanPairs _ pr hpr
  have hcr1 : pr.1 ∈ crossings pts y := hperm.mem_iff.mp hmemS.1
  have hcr2 : pr.2 ∈ crossings pts y := hperm.mem_iff.mp hmemS.2
  have hb1 := crossings_bounds pts y w hbnd pr.1 hcr1
  have hb2 := crossings_bounds pts y w hbnd pr.2 hcr2
  -- undo the span clamping
  have hceil1 : 0 ≤ ⌈pr.1⌉ := Int.ceil_nonneg hb1.1
  have hceil2 : ⌈pr.1⌉ ≤ w - 1 := Int.ceil_le.mpr (by push_cast; exact hb1.2)
  have hfloor1 : 0 ≤ ⌊pr.2⌋ := Int.floor_nonneg.mpr hb2.1
  have hfloor2 : ⌊pr.2⌋ ≤ w - 1 := by
    have h1 : pr.2 ≤ ((w - 1 : ℤ) : ℚ) := by push_cast; exact hb2.2
    have h2 := Int.floor_mono h1
    rwa [Int.floor_intCast] at h2
  have hsp := of_decide_eq_true hIn
  rw [clampInt_eq_self _ _ _ hceil1 hceil2,
    clampInt_eq_self _ _ _ hfloor1 hfloor2] at hsp
  have hx1q : pr.1 ≤ (x : ℚ) := Int.ceil_le.mp hsp.1
  have hx2q : (x : ℚ) ≤ pr.2 := Int.le_floor.mp hsp.2
  have hstrict1 : pr.1 < (x : ℚ) :=
    lt_of_le_of_ne hx1q (fun hc => hxnot (hc ▸ hcr1))
  have hstrict2 : (x : ℚ) < pr.2 :=
    lt_of_le_of_ne hx2q (fun hc => hxnot (hc.symm ▸ hcr2))
  have heven : (sortedCrossings pts y).length % 2 = 0 := by
    rw [hperm.length_eq]; exact length_crossings_even pts y
  have hoddS := (parity_iff_span (x : ℚ) (sortedCrossings pts y)
    (sortedCrossings_sorted pts y) hxnot2 heven).mpr ⟨pr, hpr, hstrict1, hstrict2⟩
  rw [hperm.countP_eq, ← rayCrossCount_eq_countP pts ⟨x, y⟩] at hoddS
  omega

/-!  Characterisation of the polygon fold. -/

theorem editStep_apply (w h : ℤ) (rgba : ℤ → ℤ) (p : MaskPolygon) (i : ℤ) :
    editStep w h rgba p i = if editTouches w h p i then 0 else rgba i := by
  unfold editStep editTouches fillPolygonAlpha
  by_cases h3 : (polygonPts w h p).length < 3
  · simp [h3]
  · by_cases h4 : i % 4 = 3
    · by_cases h5 : fillsPixel w h (polygonPts w h p) (i / 4 % w) (i / 4 / w) = true
      · simp [h3, h4, h5]
      · simp [h3, h4, h5]
    · simp [h3, h4]

theorem foldl_editStep_apply (w h : ℤ) (ps : List MaskPolygon) (rgba : ℤ → ℤ)
    (i : ℤ) :
    ps.foldl (editStep w h) rgba i =
      if ps.any (fun p => editTouches w h p i) then 0 else rgba i := by
  induction ps generalizing rgba with
  | nil => simp
  | cons p ps ih =>
    rw [List.foldl_cons, ih, List.any_cons]
    by_cases h1 : editTouches w h p i
    · by_cases h2 : ps.any (fun q => editTouches w h q i) <;>
        simp [h1, h2, editStep_apply]
    · by_cases h2 : ps.any (fun q => editTouches w h q i) <;>
        simp [h1, h2, editStep_apply]

theorem editMaskBuffer_apply (w h : ℤ) (polygons : List MaskPolygon)
    (includeLabel : String → Bool) (i : ℤ) :
    editMaskBuffer w h polygons includeLabel i =
      if (polygons.filter (labelMatches includeLabel)).any
          (fun p => editTouches w h p i)
      then 0 else initMaskBuffer w h i := by
  unfold editMaskBuffer
  exact foldl_editStep_apply w h _ _ i

/-- **C2.**  For every collection of polygons each having at least 3 points,
rasterised by `buildEditMaskPng` onto a raster of positive integer width and
height with a label predicate: every pixel whose centre lies strictly inside
a matching polygon (even–odd rule, covering convex and simple concave
polygons) has its alpha byte set editable (0), and every pixel strictly
outside all matching polygons keeps alpha 255, the scanline spans being
`[⌈x0⌉, ⌊x1⌋]` between successive sorted intersections (as embedded in
`fillsPixel`/`inSpan`). -/
theorem scanline_rasterizer_correct (w h : ℤ) (polygons : List MaskPolygon)
    (includeLabel : String → Bool) (x y : ℤ) (hw : 0 < w) (hh : 0 < h)
    (hpts : ∀ p ∈ polygons, 3 ≤ p.points.length)
    (hx0 : 0 ≤ x) (hx1 : x < w) (hy0 : 0 ≤ y) (hy1 : y < h) :
    buildEditMask w h polygons includeLabel =
      some (editMaskBuffer w h polygons includeLabel) ∧
    ((∃ p ∈ polygons, labelMatches includeLabel p = true ∧
        strictlyInside (polygonPts w h p) ⟨x, y⟩) →
      editMaskBuffer w h polygons includeLabel (alphaIdx w x y) = 0) ∧
    ((∀ p ∈ polygons, labelMatches includeLabel p = true →
        strictlyOutside (polygonPts w h p) ⟨x, y⟩) →
      editMaskBuffer w h polygons includeLabel (alphaIdx w x y) = 255) := by
  obtain ⟨hdm, hdd⟩ := alphaIdx_div_mod w x y hw hx0 hx1 hy0
  refine ⟨by unfold buildEditMask; rw [if_neg (by omega)], ?_, ?_⟩
  · rintro ⟨p, hp, hmatch, hin⟩
    rw [editMaskBuffer_apply]
    rw [if_pos]
    rw [List.any_eq_true]
    refine ⟨p, List.mem_filter.mpr ⟨hp, hmatch⟩, ?_⟩
    unfold editTouches
    have hlen : ¬ (polygonPts w h p).length < 3 := by
      unfold polygonPts
      rw [List.length_map]
      have := hpts p hp
      omega
    rw [hdm, hdd]
    simp only [Bool.and_eq_true, Bool.not_eq_true', decide_eq_false_iff_not,
      decide_eq_true_eq]
    exact ⟨⟨hlen, alphaIdx_mod_four w x y⟩,
      fillsPixel_of_strictlyInside w h _ x y hx0 hx1 hy0 hy1 hin⟩
  · intro hall
    rw [editMaskBuffer_apply]
    rw [if_neg, initMaskBuffer_alpha w h x y hw hh hx0 hx1 hy0 hy1]
    rw [List.any_eq_true]
    rintro ⟨p, hpmem, htouch⟩
    obtain ⟨hp, hmatch⟩ := List.mem_filter.mp hpmem
    unfold editTouches at htouch
    rw [hdm, hdd] at htouch
    simp only [Bool.and_eq_true] at htouch
    have hfp := htouch.2
    have hbnd : ∀ v ∈ polygonPts w h p, 0 ≤ v.x ∧ v.x ≤ w - 1 :=
      fun v hv => (polygonPts_bounds w h hw hh p v hv).1
    rw [not_fillsPixel_of_strictlyOutside w h _ x y hx0 hx1 hy0 hy1 hbnd
      (hall p hp hmatch)] at hfp
    cases hfp

/-- Concrete instantiation of the rasterizer theorem: an 8×8 raster with the
square polygon (25 %–75 %), an interior pixel and an exterior pixel. -/
theorem scanline_rasterizer_correct_witness :
    (0 : ℤ) < 8 ∧
    editMaskBuffer 8 8 [⟨"background", [(25, 25), (75, 25), (75, 75), (25, 75)]⟩]
      (fun l => l == "background") (alphaIdx 8 3 3) = 0 ∧
    editMaskBuffer 8 8 [⟨"background", [(25, 25), (75, 25), (75, 75), (25, 75)]⟩]
      (fun l => l == "background") (alphaIdx 8 1 3) = 255 := by
  have hpp : polygonPts 8 8 ⟨"background", [(25, 25), (75, 25), (75, 75), (25, 75)]⟩ =
      [⟨2, 2⟩, ⟨6, 2⟩, ⟨6, 6⟩, ⟨2, 6⟩] := by
    norm_num [polygonPts, toPx, clampInt, round_eq]
  have hin : strictlyInside
      (polygonPts 8 8 ⟨"background", [(25, 25), (75, 25), (75, 75), (25, 75)]⟩)
      ⟨3, 3⟩ := by
    rw [hpp]
    constructor
    · decide
    · have : rayCrossCount [(⟨2, 2⟩ : Pt), ⟨6, 2⟩, ⟨6, 6⟩, ⟨2, 6⟩] ⟨3, 3⟩ = 1 := by
        norm_num [rayCrossCount, edges, raySegCross, List.filter]
      rw [this]
  have hout : strictlyOutside
      (polygonPts 8 8 ⟨"background", [(25, 25), (75, 25), (75, 75), (25, 75)]⟩)
      ⟨1, 3⟩ := by
    rw [hpp]
    constructor
    · decide
    · have : rayCrossCount [(⟨2, 2⟩ : Pt), ⟨6, 2⟩, ⟨6, 6⟩, ⟨2, 6⟩] ⟨1, 3⟩ = 2 := by
        norm_num [rayCrossCount, edges, raySegCross, List.filter]
      rw [this]
  refine ⟨by decide, ?_, ?_⟩
  · exact (scanline_rasterizer_correct 8 8
      [⟨"background", [(25, 25), (75, 25), (75, 75), (25, 75)]⟩]
      (fun l => l == "background") 3 3 (by decide) (by decide)
      (by intro p hp; fin_cases hp <;> simp) (by decide) (by decide) (by decide)
      (by decide)).2.1
      ⟨⟨"background", [(25, 25), (75, 25), (75, 75), (25, 75)]⟩, by simp,
        by decide, hin⟩
  · exact (scanline_rasterizer_correct 8 8
      [⟨"background", [(25, 25), (75, 25), (75, 75), (25, 75)]⟩]
      (fun l => l == "background") 1 3 (by decide) (by decide)
      (by intro p hp; fin_cases hp <;> simp) (by decide) (by decide) (by decide)
      (by decide)).2.2
      (by intro p hp _; fin_cases hp; exact hout)

/-- **C7.**  Rasterising `{A, B}` with a predicate matching both yields the
pixel-wise union of the editable sets of rasterising `{A}` and `{B}` alone. -/
theorem mask_union (w h : ℤ) (A B : MaskPolygon) (includeLabel : String → Bool)
    (hw : 0 < w) (hh : 0 < h)
    (hA : labelMatches includeLabel A = true)
    (hB : labelMatches includeLabel B = true)
    (x y : ℤ) (hx0 : 0 ≤ x) (hx1 : x < w) (hy0 : 0 ≤ y) (hy1 : y < h) :
    (editMaskBuffer w h [A, B] includeLabel (alphaIdx w x y) = 0 ↔
      (editMaskBuffer w h [A] includeLabel (alphaIdx w x y) = 0 ∨
        editMaskBuffer w h [B] includeLabel (alphaIdx w x y) = 0)) := by
  have hinit := initMaskBuffer_alpha w h x y hw hh hx0 hx1 hy0 hy1
  have hfAB : ([A, B] : List MaskPolygon).filter (labelMatches includeLabel) = [A, B] := by
    simp [List.filter, hA, hB]
  have hfA : ([A] : List MaskPolygon).filter (labelMatches includeLabel) = [A] := by
    simp [List.filter, hA]
  have hfB : ([B] : List MaskPolygon).filter (labelMatches includeLabel) = [B] := by
    simp [List.filter, hB]
  rw [editMaskBuffer_apply, editMaskBuffer_apply, editMaskBuffer_apply,
    hfAB, hfA, hfB]
  by_cases h1 : editTouches w h A (alphaIdx w x y) <;>
    by_cases h2 : editTouches w h B (alphaIdx w x y) <;>
      simp [h1, h2, hinit]

/-- Concrete instantiation of the union theorem. -/
theorem mask_union_witness :
    (editMaskBuffer 8 8 [⟨"a", [(0, 0), (40, 0), (40, 40)]⟩,
        ⟨"b", [(60, 60), (99, 60), (99, 99)]⟩] (fun _ => true) (alphaIdx 8 2 1) = 0 ↔
      (editMaskBuffer 8 8 [⟨"a", [(0, 0), (40, 0), (40, 40)]⟩] (fun _ => true)
          (alphaIdx 8 2 1) = 0 ∨
        editMaskBuffer 8 8 [⟨"b", [(60, 60), (99, 60), (99, 99)]⟩] (fun _ => true)
          (alphaIdx 8 2 1) = 0)) :=
  mask_union 8 8 ⟨"a", [(0, 0), (40, 0), (40, 40)]⟩
    ⟨"b", [(60, 60), (99, 60), (99, 99)]⟩ (fun _ => true)
    (by decide) (by decide) (by decide) (by decide)
    2 1 (by decide) (by decide) (by decide) (by decide)

/-!  Binary-mask invariant and the shrink-only property of the refiner. -/

theorem initMaskBuffer_isBinary (w h : ℤ) : isBinaryMask (initMaskBuffer w h) := by
  intro i
  unfold initMaskBuffer
  constructor
  · intro hi
    by_cases hr : 0 ≤ i ∧ i < w * h * 4 ∧ i % 4 = 3
    · rw [if_pos hr]; right; rfl
    · rw [if_neg hr]; left; rfl
  · intro hi
    rw [if_neg (by tauto)]

theorem fillPolygonAlpha_isBinary (w h : ℤ) (pts : List Pt) (b : ℤ → ℤ)
    (hb : isBinaryMask b) : isBinaryMask (fillPolygonAlpha w h pts 0 b) := by
  intro i
  unfold fillPolygonAlpha
  constructor
  · intro hi
    by_cases hc : i % 4 = 3 ∧ fillsPixel w h pts (i / 4 % w) (i / 4 / w) = true
    · rw [if_pos hc]; left; rfl
    · rw [if_neg hc]; exact (hb i).1 hi
  · intro hi
    rw [if_neg (by tauto)]
    exact (hb i).2 hi

theorem editStep_isBinary (w h : ℤ) (b : ℤ → ℤ) (p : MaskPolygon)
    (hb : isBinaryMask b) : isBinaryMask (editStep w h b p) := by
  unfold editStep
  by_cases h3 : (polygonPts w h p).length < 3
  · rw [if_pos h3]; exact hb
  · rw [if_neg h3]; exact fillPolygonAlpha_isBinary w h _ b hb

theorem glyphStep_isBinary (origPx : ℤ → ℤ → RGB)
    (blurredBox : ℤ × ℤ × ℤ × ℤ → ℤ → ℤ → RGB) (w h : ℤ) (b : ℤ → ℤ)
    (p : MaskPolygon) (hb : isBinaryMask b) :
    isBinaryMask (glyphStep origPx blurredBox w h b p) := by
  unfold glyphStep
  by_cases h3 : (polygonPts w h p).length < 3
  · rw [if_pos h3]; exact hb
  · rw [if_neg h3]
    have hfill := fillPolygonAlpha_isBinary w h (polygonPts w h p) b hb
    rcases hbd : polygonBounds (polygonPts w h p) w h 6 with _ | ⟨⟨left, top, boxW, boxH⟩⟩
    · exact hfill
    · intro i
      refine ⟨?_, ?_⟩
      · intro hi
        dsimp only
        split
        · right; rfl
        · exact (hfill i).1 hi
      · intro hi
        dsimp only
        split
        · next hcond => exact absurd hcond.1 hi
        · exact (hfill i).2 hi

theorem foldl_isBinary {step : (ℤ → ℤ) → MaskPolygon → ℤ → ℤ}
    (hstep : ∀ b p, isBinaryMask b → isBinaryMask (step b p))
    (ps : List MaskPolygon) (b : ℤ → ℤ) (hb : isBinaryMask b) :
    isBinaryMask (ps.foldl step b) := by
  induction ps generalizing b with
  | nil => exact hb
  | cons p ps ih => exact ih (step b p) (hstep b p hb)

/-- **C10.**  The raw rasters produced by both mask builders (plain
rasterisation and glyph refinement) are strictly binary: every alpha byte is
0 or 255, and every colour byte is 0, for all inputs and oracles. -/
theorem mask_buffers_binary (w h : ℤ) (polygons : List MaskPolygon)
    (includeLabel : String → Bool) (origPx : ℤ → ℤ → RGB)
    (blurredBox : ℤ × ℤ × ℤ × ℤ → ℤ → ℤ → RGB) :
    isBinaryMask (editMaskBuffer w h polygons includeLabel) ∧
    isBinaryMask (glyphMaskBuffer origPx blurredBox w h polygons includeLabel) := by
  constructor
  · exact foldl_isBinary (fun b p => editStep_isBinary w h b p) _ _
      (initMaskBuffer_isBinary w h)
  · exact foldl_isBinary (fun b p => glyphStep_isBinary origPx blurredBox w h b p) _ _
      (initMaskBuffer_isBinary w h)

/-- If editability at a byte transfers from `b1` to `b2`, it still transfers
after filling the same polygon into both. -/
theorem fillPolygonAlpha_zero_mono (w h : ℤ) (pts : List Pt) (b1 b2 : ℤ → ℤ)
    (i : ℤ) (hmono : b1 i = 0 → b2 i = 0) :
    fillPolygonAlpha w h pts 0 b1 i = 0 → fillPolygonAlpha w h pts 0 b2 i = 0 := by
  unfold fillPolygonAlpha
  by_cases hc : i % 4 = 3 ∧ fillsPixel w h pts (i / 4 % w) (i / 4 / w) = true
  · rw [if_pos hc, if_pos hc]
    exact fun h => h
  · rw [if_neg hc, if_neg hc]
    exact hmono

theorem glyphStep_zero_mono (origPx : ℤ → ℤ → RGB)
    (blurredBox : ℤ × ℤ × ℤ × ℤ → ℤ → ℤ → RGB) (w h : ℤ) (b1 b2 : ℤ → ℤ)
    (p : MaskPolygon) (i : ℤ) (hmono : b1 i = 0 → b2 i = 0) :
    glyphStep origPx blurredBox w h b1 p i = 0 → editStep w h b2 p i = 0 := by
  unfold glyphStep editStep
  by_cases h3 : (polygonPts w h p).length < 3
  · rw [if_pos h3, if_pos h3]
    exact hmono
  · rw [if_neg h3, if_neg h3]
    have hfill := fillPolygonAlpha_zero_mono w h (polygonPts w h p) b1 b2 i hmono
    rcases hbd : polygonBounds (polygonPts w h p) w h 6 with _ | ⟨⟨left, top, boxW, boxH⟩⟩
    · exact hfill
    · intro hz
      dsimp only at hz
      revert hz
      split
      · intro hz
        cases hz
      · exact hfill

/-- **C5.**  Glyph refinement only shrinks: any byte editable (0) in the
glyph-refined mask is editable in the plain polygon rasterisation of the
same polygons, predicate and dimensions, for every source image and blur
oracle. -/
theorem glyph_refinement_shrinks (origPx : ℤ → ℤ → RGB)
    (blurredBox : ℤ × ℤ × ℤ × ℤ → ℤ → ℤ → RGB) (w h : ℤ)
    (polygons : List MaskPolygon) (includeLabel : String → Bool)
    (mg mp : ℤ → ℤ)
    (hg : buildTextGlyphEditMask origPx blurredBox w h polygons includeLabel = some mg)
    (hp : buildEditMask w h polygons includeLabel = some mp) :
    ∀ i : ℤ, mg i = 0 → mp i = 0 := by
  unfold buildTextGlyphEditMask at hg
  unfold buildEditMask at hp
  by_cases hdim : w ≤ 0 ∨ h ≤ 0
  · rw [if_pos hdim] at hg
    cases hg
  · rw [if_neg hdim] at hg hp
    have hg2 := Option.some.inj hg
    have hp2 := Option.some.inj hp
    subst hg2
    subst hp2
    unfold glyphMaskBuffer editMaskBuffer
    set ps := polygons.filter (labelMatches includeLabel) with hps
    clear hps hg hp hdim
    have main : ∀ (qs : List MaskPolygon) (b1 b2 : ℤ → ℤ) (i : ℤ),
        (b1 i = 0 → b2 i = 0) →
        qs.foldl (glyphStep origPx blurredBox w h) b1 i = 0 →
        qs.foldl (editStep w h) b2 i = 0 := by
      intro qs
      induction qs with
      | nil => exact fun b1 b2 i hmono => hmono
      | cons q qs ih =>
        intro b1 b2 i hmono
        rw [List.foldl_cons, List.foldl_cons]
        exact ih _ _ i (glyphStep_zero_mono origPx blurredBox w h b1 b2 q i hmono)
    exact fun i => main ps _ _ i (fun hz => hz)

/-- Pointwise form of `glyphStep` once the converted points and padded
bounds are known. -/
theorem glyphStep_eval (origPx : ℤ → ℤ → RGB)
    (blurredBox : ℤ × ℤ × ℤ × ℤ → ℤ → ℤ → RGB) (w h : ℤ) (rgba : ℤ → ℤ)
    (p : MaskPolygon) (ptsLit : List Pt) (l t bw bh i : ℤ)
    (hpts : polygonPts w h p = ptsLit)
    (hlen : ¬ ptsLit.length < 3)
    (hbounds : polygonBounds ptsLit w h 6 = some (l, t, bw, bh)) :
    glyphStep origPx blurredBox w h rgba p i =
      if i % 4 = 3 ∧ l ≤ i / 4 % w ∧ i / 4 % w < l + bw ∧ t ≤ i / 4 / w ∧
          i / 4 / w < t + bh ∧
          dilate (edgeDetect (fun x y => origPx (l + x) (t + y))
            (blurredBox (l, t, bw, bh)) 26) bw bh 3
            (i / 4 % w - l) (i / 4 / w - t) = false ∧
          fillPolygonAlpha w h ptsLit 0 rgba i = 0
      then 255 else fillPolygonAlpha w h ptsLit 0 rgba i := by
  unfold glyphStep
  rw [hpts]
  dsimp only
  rw [if_neg hlen, hbounds]

/-- The triangle `(0 %, 0 %), (99 %, 0 %), (50 %, 99 %)` on a 4×4 raster
converts to the integer points `(0,0), (3,0), (2,3)`. -/
theorem glyphPts_small : polygonPts 4 4 ⟨"text", [(0, 0), (99, 0), (50, 99)]⟩ =
    [⟨0, 0⟩, ⟨3, 0⟩, ⟨2, 3⟩] := by
  norm_num [polygonPts, toPx, clampInt, round_eq]

/-- The scanline fill covers pixel `(2, 1)` of that triangle. -/
theorem fills_small :
    fillsPixel 4 4 [⟨0, 0⟩, ⟨3, 0⟩, ⟨2, 3⟩] (27 / 4 % 4) (27 / 4 / 4) = true := by
  norm_num [fillsPixel, sortedCrossings, crossings, edges, edgeCross, spanPairs,
    inSpan, List.insertionSort, List.orderedInsert, List.filterMap, polyMinY,
    polyMaxY, clampInt]
  exact Int.ceil_le.mpr (by norm_num)

/-- Byte 27 — the alpha byte of pixel `(2, 1)` — is set editable by the
fill. -/
theorem fillAlpha_small :
    fillPolygonAlpha 4 4 [⟨0, 0⟩, ⟨3, 0⟩, ⟨2, 3⟩] 0 (initMaskBuffer 4 4) 27 = 0 := by
  unfold fillPolygonAlpha
  rw [if_pos ⟨by decide, fills_small⟩]

/-- With a constant-white source against a constant-black blur, every box
pixel is edge-dilated, so the glyph step keeps byte 27 editable. -/
theorem glyphStep_small :
    glyphStep (fun _ _ => ⟨255, 255, 255⟩) (fun _ _ _ => ⟨0, 0, 0⟩) 4 4
      (initMaskBuffer 4 4) ⟨"text", [(0, 0), (99, 0), (50, 99)]⟩ 27 = 0 := by
  rw [glyphStep_eval (fun _ _ => ⟨255, 255, 255⟩) (fun _ _ _ => ⟨0, 0, 0⟩) 4 4
    (initMaskBuffer 4 4) _ [⟨0, 0⟩, ⟨3, 0⟩, ⟨2, 3⟩] 0 0 4 4 27 glyphPts_small
    (by decide) (by decide)]
  rw [if_neg (by decide)]
  exact fillAlpha_small

/-- The glyph-refined mask of the small triangle is editable at the alpha
byte of pixel `(2, 1)`. -/
theorem glyphMask_small :
    glyphMaskBuffer (fun _ _ => ⟨255, 255, 255⟩) (fun _ _ _ => ⟨0, 0, 0⟩) 4 4
      [⟨"text", [(0, 0), (99, 0), (50, 99)]⟩] (fun l => l == "text")
      (alphaIdx 4 2 1) = 0 := by
  unfold glyphMaskBuffer
  rw [show ([⟨"text", [(0, 0), (99, 0), (50, 99)]⟩] : List MaskPolygon).filter
    (labelMatches (fun l => l == "text")) =
      [⟨"text", [(0, 0), (99, 0), (50, 99)]⟩] from rfl]
  rw [List.foldl_cons, List.foldl_nil]
  exact glyphStep_small

/-- Concrete instantiation of the shrink-only theorem on a 4×4 raster with a
triangle polygon: the glyph-refined mask is editable at pixel `(2, 1)`
(`glyphMask_small`), hence so is the plain polygon rasterisation. -/
theorem glyph_refinement_shrinks_witness :
    editMaskBuffer 4 4 [⟨"text", [(0, 0), (99, 0), (50, 99)]⟩]
      (fun l => l == "text") (alphaIdx 4 2 1) = 0 :=
  glyph_refinement_shrinks (fun _ _ => ⟨255, 255, 255⟩) (fun _ _ _ => ⟨0, 0, 0⟩)
    4 4 [⟨"text", [(0, 0), (99, 0), (50, 99)]⟩] (fun l => l == "text") _ _
    (by norm_num [buildTextGlyphEditMask]) (by norm_num [buildEditMask])
    (alphaIdx 4 2 1) glyphMask_small

end Mask

namespace Probe

theorem findFirstMatchingRow_bounds (data : ℤ → ℤ) (width height channels x0 x1 : ℤ)
    (fromTop : Bool) (target : RGB) (y : ℤ)
    (h : findFirstMatchingRow data width height channels x0 x1 fromTop target = some y) :
    0 ≤ y ∧ y < height := by
  unfold findFirstMatchingRow at h
  have hm := List.mem_of_find?_eq_some h
  have hy : y ∈ (List.range height.toNat).map (Int.ofNat) := by
    rcases fromTop with _ | _
    · rw [← List.mem_reverse]
      simpa using hm
    · simpa using hm
  obtain ⟨n, hn, rfl⟩ := List.mem_map.mp hy
  have hn2 := List.mem_range.mp hn
  have hcast : Int.ofNat n = (n : ℤ) := rfl
  rw [hcast]
  omega

theorem finishRefine_none (height : ℤ) (tY bY : Option ℤ)
    (h : tY = none ∨ bY = none) : finishRefine height tY bY = none := by
  rcases tY with _ | ty
  · rcases bY with _ | yb <;> rfl
  · rcases bY with _ | yb
    · rfl
    · rcases h with h | h <;> cases h

theorem finishRefine_shape (height : ℤ) (tY bY : Option ℤ) (t b hp : ℚ)
    (h : finishRefine height tY bY = some (t, b, hp)) :
    ∃ ty yb, tY = some ty ∧ bY = some yb ∧ 0 ≤ ty ∧ ty < yb ∧
      t = round1 ((ty : ℚ) / (height : ℚ) * 100) ∧
      b = round1 ((yb : ℚ) / (height : ℚ) * 100) := by
  rcases tY with _ | ty
  · rw [finishRefine_none height none bY (Or.inl rfl)] at h
    cases h
  rcases bY with _ | yb
  · rw [finishRefine_none height (some ty) none (Or.inr rfl)] at h
    cases h
  unfold finishRefine at h
  dsimp only at h
  split_ifs at h with hcond
  have h2 := Option.some.inj h
  rw [Prod.ext_iff] at h2
  rw [Prod.ext_iff] at h2
  exact ⟨ty, yb, rfl, rfl, hcond.1, hcond.2, h2.1.symm, h2.2.1.symm⟩

theorem refine_returns_bounded (data : ℤ → ℤ) (width height channels : ℤ)
    (widthPctOpt : Option ℚ) (regions : List String) (t b hp : ℚ)
    (hres : refineTextBlockExtents data width height channels widthPctOpt regions =
      some (t, b, hp)) :
    0 ≤ t ∧ t ≤ b ∧ b ≤ 100 := by
  unfold refineTextBlockExtents at hres
  split_ifs at hres
  unfold_let at hres
  obtain ⟨ty, yb, hty, hyb, hty0, htylt, ht, hb⟩ :=
    finishRefine_shape height _ _ t b hp hres
  have hybb : 0 ≤ yb ∧ yb < height := by
    rcases hpc : parseHexColor (regions.getLastD "") with _ | c
    · rw [hpc] at hyb
      cases hyb
    · rw [hpc] at hyb
      exact findFirstMatchingRow_bounds data width height channels _ _ false c yb hyb
  have hh : (0 : ℤ) < height := by omega
  have hhq : (0 : ℚ) < (height : ℚ) := by exact_mod_cast hh
  have hty0q : (0 : ℚ) ≤ (ty : ℚ) := by exact_mod_cast hty0
  have htyyb : (ty : ℚ) ≤ (yb : ℚ) := by exact_mod_cast le_of_lt htylt
  have hybh : (yb : ℚ) ≤ (height : ℚ) := by exact_mod_cast le_of_lt hybb.2
  refine ⟨?_, ?_, ?_⟩
  · rw [ht]
    unfold round1
    have harg : (0 : ℚ) ≤ (ty : ℚ) / (height : ℚ) * 100 := by positivity
    have hr : (0 : ℤ) ≤ round ((ty : ℚ) / (height : ℚ) * 100 * 10) := by
      rw [round_eq]
      exact Int.floor_nonneg.mpr (by linarith)
    have : (0 : ℚ) ≤ ((round ((ty : ℚ) / (height : ℚ) * 100 * 10) : ℤ) : ℚ) := by
      exact_mod_cast hr
    linarith
  · rw [ht, hb]
    unfold round1
    have hmono : (ty : ℚ) / (height : ℚ) * 100 * 10 ≤ (yb : ℚ) / (height : ℚ) * 100 * 10 := by
      have h2 : (ty : ℚ) / (height : ℚ) ≤ (yb : ℚ) / (height : ℚ) := by
        gcongr
      linarith
    have hr : round ((ty : ℚ) / (height : ℚ) * 100 * 10) ≤
        round ((yb : ℚ) / (height : ℚ) * 100 * 10) := by
      rw [round_eq, round_eq]
      exact Int.floor_mono (by linarith)
    have hrq : ((round ((ty : ℚ) / (height : ℚ) * 100 * 10) : ℤ) : ℚ) ≤
        ((round ((yb : ℚ) / (height : ℚ) * 100 * 10) : ℤ) : ℚ) := by exact_mod_cast hr
    linarith
  · rw [hb]
    unfold round1
    have harg : (yb : ℚ) / (height : ℚ) * 100 * 10 ≤ 1000 := by
      have h1 : (yb : ℚ) / (height : ℚ) ≤ 1 := by
        rw [div_le_one hhq]
        exact hybh
      linarith
    have hr : round ((yb : ℚ) / (height : ℚ) * 100 * 10) ≤ 1000 := by
      rw [round_eq]
      have : ⌊(yb : ℚ) / (height : ℚ) * 100 * 10 + 1 / 2⌋ < 1001 := by
        rw [Int.floor_lt]
        push_cast
        linarith
      omega
    have hrq : ((round ((yb : ℚ) / (height : ℚ) * 100 * 10) : ℤ) : ℚ) ≤ 1000 := by
      exact_mod_cast hr
    linarith

set_option maxRecDepth 1000000 in
set_option maxHeartbeats 4000000 in
theorem probeTopScan :
    findFirstMatchingRow probeImage 40 1001 3 8 28 true ⟨255, 255, 255⟩ = some 500 := by
  simp only [findFirstMatchingRow]
  rw [show (max 20 ⌊((max 1 ((28 : ℤ) - 8) : ℤ) : ℚ) * (3 / 500)⌋ : ℤ) = 20 from by
    norm_num]
  decide

set_option maxRecDepth 1000000 in
set_option maxHeartbeats 8000000 in
theorem probeBottomScan :
    findFirstMatchingRow probeImage 40 1001 3 8 28 false ⟨255, 0, 0⟩ = some 501 := by
  simp only [findFirstMatchingRow]
  rw [show (max 20 ⌊((max 1 ((28 : ℤ) - 8) : ℤ) : ℚ) * (3 / 500)⌋ : ℤ) = 20 from by
    norm_num]
  decide

/-- **C6, counterexample.**  On the 40×1001 probe image (white row 500, red
row 501), the prober *does* return a refined result, but with
`topPct = bottomPct = 50`: one-decimal rounding collapses the two adjacent
rows, violating the claimed strict inequality `topPct < bottomPct`. -/
theorem prober_strict_inequality_fails :
    refineTextBlockExtents probeImage 40 1001 3 none ["#ffffff", "#ff0000"] =
      some (50, 50, 0) ∧ ¬((50 : ℚ) < 50) := by
  refine ⟨?_, by norm_num⟩
  unfold refineTextBlockExtents
  rw [if_neg (by decide), if_neg (by decide)]
  unfold_let
  rw [show (["#ffffff", "#ff0000"] : List String).headD "" = "#ffffff" from rfl,
      show (["#ffffff", "#ff0000"] : List String).getLastD "" = "#ff0000" from rfl]
  rw [show parseHexColor "#ffffff" = some ⟨255, 255, 255⟩ from by decide,
      show parseHexColor "#ff0000" = some ⟨255, 0, 0⟩ from by decide]
  dsimp only
  norm_num [Mask.clampInt]
  rw [probeTopScan, probeBottomScan]
  unfold finishRefine
  dsimp only
  rw [if_pos (by norm_num : (0 : ℤ) ≤ 500 ∧ (500 : ℤ) < 501)]
  norm_num [round1, round_eq]

/-- **C6 (amended).**  Whenever the prober returns a refined result the
percentages satisfy `0 ≤ topPct ≤ bottomPct ≤ 100` (strictness can be lost
to the one-decimal rounding, though the underlying rows satisfy
`topY < bottomY`); an unparseable or absent edge colour yields no refinement
(the spec is returned unchanged), and a missing scan result on either edge
likewise yields no refinement. -/
theorem prober_refinement_amended :
    (∀ (data : ℤ → ℤ) (width height channels : ℤ) (wp : Option ℚ)
        (regions : List String) (t b hp : ℚ),
        refineTextBlockExtents data width height channels wp regions = some (t, b, hp) →
        0 ≤ t ∧ t ≤ b ∧ b ≤ 100) ∧
    (∀ (data : ℤ → ℤ) (width height channels : ℤ) (wp : Option ℚ)
        (regions : List String),
        parseHexColor (regions.headD "") = none →
        refineTextBlockExtents data width height channels wp regions = none) ∧
    (∀ (height : ℤ) (tY bY : Option ℤ), tY = none ∨ bY = none →
        finishRefine height tY bY = none) := by
  refine ⟨?_, ?_, fun height tY bY h => finishRefine_none height tY bY h⟩
  · intro data width height channels wp regions t b hp hres
    exact refine_returns_bounded data width height channels wp regions t b hp hres
  · intro data width height channels wp regions hpc
    unfold refineTextBlockExtents
    split_ifs
    · rfl
    · rfl
    · unfold_let
      rw [hpc]
      exact finishRefine_none height _ _ (Or.inl rfl)

theorem smallProbeTopScan :
    findFirstMatchingRow smallProbeImage 40 4 3 8 28 true ⟨255, 255, 255⟩ = some 0 := by
  simp only [findFirstMatchingRow]
  rw [show (max 20 ⌊((max 1 ((28 : ℤ) - 8) : ℤ) : ℚ) * (3 / 500)⌋ : ℤ) = 20 from by
    norm_num]
  decide

theorem smallProbeBottomScan :
    findFirstMatchingRow smallProbeImage 40 4 3 8 28 false ⟨255, 0, 0⟩ = some 3 := by
  simp only [findFirstMatchingRow]
  rw [show (max 20 ⌊((max 1 ((28 : ℤ) - 8) : ℤ) : ℚ) * (3 / 500)⌋ : ℤ) = 20 from by
    norm_num]
  decide

theorem smallProbeRefine :
    refineTextBlockExtents smallProbeImage 40 4 3 none ["#ffffff", "#ff0000"] =
      some (0, 75, 75) := by
  unfold refineTextBlockExtents
  rw [if_neg (by decide), if_neg (by decide)]
  unfold_let
  rw [show (["#ffffff", "#ff0000"] : List String).headD "" = "#ffffff" from rfl,
      show (["#ffffff", "#ff0000"] : List String).getLastD "" = "#ff0000" from rfl]
  rw [show parseHexColor "#ffffff" = some ⟨255, 255, 255⟩ from by decide,
      show parseHexColor "#ff0000" = some ⟨255, 0, 0⟩ from by decide]
  dsimp only
  norm_num [Mask.clampInt]
  rw [smallProbeTopScan, smallProbeBottomScan]
  unfold finishRefine
  dsimp only
  rw [if_pos (by norm_num : (0 : ℤ) ≤ 0 ∧ (0 : ℤ) < 3)]
  norm_num [round1, round_eq]

/-- Concrete instantiation of the amended prober theorem. -/
theorem prober_refinement_amended_witness :
    ((0 : ℚ) ≤ 0 ∧ (0 : ℚ) ≤ 75 ∧ (75 : ℚ) ≤ 100) ∧
    refineTextBlockExtents smallProbeImage 40 4 3 none ["nope", "x"] = none ∧
    finishRefine 4 none (some 3) = none :=
  ⟨prober_refinement_amended.1 smallProbeImage 40 4 3 none ["#ffffff", "#ff0000"]
      0 75 75 smallProbeRefine,
    prober_refinement_amended.2.1 smallProbeImage 40 4 3 none ["nope", "x"] (by decide),
    prober_refinement_amended.2.2 4 none (some 3) (Or.inl rfl)⟩

end Probe

namespace Gen

/-!  Properties of label normalization. -/

theorem toNat_ofNat_valid (n : Nat) (h : n.isValidChar) : (Char.ofNat n).toNat = n := by
  unfold Char.ofNat
  rw [dif_pos h]
  rfl

theorem ws_le32 (d : Char) (hd : Mask.jsIsWhitespace d = true) : d.toNat ≤ 32 := by
  unfold Mask.jsIsWhitespace at hd
  simp only [decide_eq_true_eq] at hd
  rcases hd with h | h | h | h <;> subst h <;> decide

theorem valid_add32 (c : Char) (h : 65 ≤ c.toNat ∧ c.toNat ≤ 90) :
    (c.toNat + 32).isValidChar := by
  unfold Nat.isValidChar
  exact Or.inl (by omega)

theorem jsIsWhitespace_toLowerChar (c : Char) :
    Mask.jsIsWhitespace (jsToLowerChar c) = Mask.jsIsWhitespace c := by
  unfold jsToLowerChar
  by_cases h : 65 ≤ c.toNat ∧ c.toNat ≤ 90
  · rw [if_pos h]
    have ht : (Char.ofNat (c.toNat + 32)).toNat = c.toNat + 32 :=
      toNat_ofNat_valid _ (valid_add32 c h)
    have hR : Mask.jsIsWhitespace c = false := by
      rcases hws : Mask.jsIsWhitespace c
      · rfl
      · have := ws_le32 c hws
        omega
    have hL : Mask.jsIsWhitespace (Char.ofNat (c.toNat + 32)) = false := by
      rcases hws : Mask.jsIsWhitespace (Char.ofNat (c.toNat + 32))
      · rfl
      · have h1 := ws_le32 _ hws
        rw [ht] at h1
        omega
    rw [hL, hR]
  · rw [if_neg h]

theorem jsToLowerChar_idem (c : Char) :
    jsToLowerChar (jsToLowerChar c) = jsToLowerChar c := by
  unfold jsToLowerChar
  by_cases h : 65 ≤ c.toNat ∧ c.toNat ≤ 90
  · rw [if_pos h, if_neg]
    rw [toNat_ofNat_valid _ (valid_add32 c h)]
    omega
  · rw [if_neg h, if_neg h]

theorem jsToLower_idem (l : List Char) : jsToLower (jsToLower l) = jsToLower l := by
  unfold jsToLower
  rw [List.map_map]
  have hcomp : (jsToLowerChar ∘ jsToLowerChar) = jsToLowerChar :=
    funext jsToLowerChar_idem
  rw [hcomp]

theorem jsTrim_toLower (l : List Char) :
    Mask.jsTrim (jsToLower l) = jsToLower (Mask.jsTrim l) := by
  unfold Mask.jsTrim jsToLower
  have hcomp : (Mask.jsIsWhitespace ∘ jsToLowerChar) = Mask.jsIsWhitespace :=
    funext jsIsWhitespace_toLowerChar
  rw [List.dropWhile_map, hcomp, ← List.map_reverse, List.dropWhile_map, hcomp,
    ← List.map_reverse]

theorem dropWhile_rdropWhile (u : List Char)
    (hu : List.dropWhile Mask.jsIsWhitespace u = u) :
    List.dropWhile Mask.jsIsWhitespace (List.rdropWhile Mask.jsIsWhitespace u) =
      List.rdropWhile Mask.jsIsWhitespace u := by
  rcases hr : List.rdropWhile Mask.jsIsWhitespace u with _ | ⟨c, t2⟩
  · rfl
  · obtain ⟨t, ht⟩ := List.rdropWhile_prefix (p := Mask.jsIsWhitespace) (l := u)
    rw [hr] at ht
    have hc : ¬ Mask.jsIsWhitespace c = true := by
      intro hcws
      have h2 : List.dropWhile Mask.jsIsWhitespace u =
          List.dropWhile Mask.jsIsWhitespace (t2 ++ t) := by
        rw [← ht]
        simp only [List.cons_append]
        rw [List.dropWhile_cons_of_pos hcws]
      rw [hu] at h2
      have h3 := congrArg List.length h2
      have h4 := (List.dropWhile_suffix (l := t2 ++ t) Mask.jsIsWhitespace).length_le
      rw [← ht] at h3
      simp only [List.cons_append, List.length_cons, List.length_append] at h3 h4
      omega
    exact List.dropWhile_cons_of_neg hc

theorem jsTrim_eq_rdrop (u : List Char) :
    Mask.jsTrim u =
      List.rdropWhile Mask.jsIsWhitespace (List.dropWhile Mask.jsIsWhitespace u) := rfl

theorem jsTrim_idem (l : List Char) :
    Mask.jsTrim (Mask.jsTrim l) = Mask.jsTrim l := by
  rw [jsTrim_eq_rdrop (Mask.jsTrim l), jsTrim_eq_rdrop l]
  rw [dropWhile_rdropWhile (List.dropWhile Mask.jsIsWhitespace l)
    (List.dropWhile_idempotent _ _), List.rdropWhile_idempotent]

theorem labelKey_idem (l : List Char) : labelKey (labelKey l) = labelKey l := by
  unfold labelKey
  rw [jsTrim_toLower, jsTrim_idem, jsToLower_idem]

theorem normalizePolygonLabelData_idem (w : List Char) :
    normalizePolygonLabelData (normalizePolygonLabelData w) =
      normalizePolygonLabelData w := by
  by_cases h0 : labelKey w = []
  · have hw : normalizePolygonLabelData w = [] := by
      simp only [normalizePolygonLabelData]
      rw [if_pos h0]
    rw [hw]
    decide
  by_cases h1 : labelKey w = "background image".data ∨
      labelKey w = "background photo".data ∨ labelKey w = "bg".data ∨
      labelKey w = "background_scene".data
  · have hw : normalizePolygonLabelData w = "background".data := by
      simp only [normalizePolygonLabelData]
      rw [if_neg h0, if_pos h1]
    rw [hw]
    decide
  by_cases h2 : labelKey w = "main subject".data ∨ labelKey w = "subject".data ∨
      labelKey w = "foreground".data ∨ labelKey w = "fg".data ∨
      labelKey w = "person".data
  · have hw : normalizePolygonLabelData w = "main".data := by
      simp only [normalizePolygonLabelData]
      rw [if_neg h0, if_neg h1, if_pos h2]
    rw [hw]
    decide
  by_cases h3 : labelKey w = "text".data
  · have hw : normalizePolygonLabelData w = "text".data := by
      simp only [normalizePolygonLabelData]
      rw [if_neg h0, if_neg h1, if_neg h2, if_pos h3]
    rw [hw]
    decide
  · have hw : normalizePolygonLabelData w = labelKey w := by
      simp only [normalizePolygonLabelData]
      rw [if_neg h0, if_neg h1, if_neg h2, if_neg h3]
      split_ifs <;> rfl
    rw [hw]
    simp only [normalizePolygonLabelData]
    rw [labelKey_idem w]
    rw [if_neg h0, if_neg h1, if_neg h2, if_neg h3]
    split_ifs <;> rfl

end Gen

namespace Gen

theorem textKey_fixed (k : String)
    (hk : labelKey ("text:" ++ k).data = ("text:" ++ k).data) :
    normalizePolygonLabel ("text:" ++ k) = "text:" ++ k := by
  have hdata : ("text:" ++ k).data = 't' :: 'e' :: 'x' :: 't' :: ':' :: k.data := by
    rw [String.data_append]
    rfl
  unfold normalizePolygonLabel normalizePolygonLabelData
  rw [hk]
  have h5 : ∀ lit : List Char, lit.headD 'z' ≠ 't' →
      ¬ ("text:" ++ k).data = lit := by
    intro lit hhead heq
    apply hhead
    have := congrArg (fun l => l.headD 'z') heq
    rw [hdata] at this
    exact this.symm
  rw [if_neg (by rw [hdata]; simp)]
  rw [if_neg (by
    push_neg
    exact ⟨h5 _ (by decide), h5 _ (by decide), h5 _ (by decide), h5 _ (by decide)⟩)]
  rw [if_neg (by
    push_neg
    refine ⟨h5 _ (by decide), h5 _ (by decide), h5 _ (by decide), h5 _ (by decide),
      h5 _ (by decide)⟩)]
  rw [if_neg (by
    intro hc
    have := congrArg List.length hc
    rw [hdata] at this
    simp only [List.length_cons, List.length_nil] at this
    omega)]
  rw [if_pos (show List.take 5 (("text:" ++ k).data) = "text:".data by
    rw [hdata]
    rfl)]

/-- **C9, counterexample.**  `text:A` is a canonical keyed label (`text:<key>`
with key `A`), yet normalization lowercases it: the result differs from the
input. -/
theorem label_canonical_not_fixed :
    normalizePolygonLabel "text:A" = "text:a" ∧ ("text:a" : String) ≠ "text:A" :=
  ⟨by decide, by decide⟩

/-- **C9 (amended).**  Label normalization is idempotent as a function
(`normalize ∘ normalize = normalize`); already-canonical labels in canonical
written form — `background`, `main`, `text`, and `text:<key>` whose written
form is already trimmed and lowercase — are returned unchanged; and each
known synonym maps deterministically to its canonical tag. -/
theorem label_normalization_amended :
    (∀ v : String, normalizePolygonLabel (normalizePolygonLabel v) =
      normalizePolygonLabel v) ∧
    (normalizePolygonLabel "background" = "background" ∧
      normalizePolygonLabel "main" = "main" ∧
      normalizePolygonLabel "text" = "text") ∧
    (∀ k : String, labelKey ("text:" ++ k).data = ("text:" ++ k).data →
      normalizePolygonLabel ("text:" ++ k) = "text:" ++ k) ∧
    (normalizePolygonLabel "bg" = "background" ∧
      normalizePolygonLabel "background image" = "background" ∧
      normalizePolygonLabel "background photo" = "background" ∧
      normalizePolygonLabel "background_scene" = "background" ∧
      normalizePolygonLabel "main subject" = "main" ∧
      normalizePolygonLabel "subject" = "main" ∧
      normalizePolygonLabel "foreground" = "main" ∧
      normalizePolygonLabel "fg" = "main" ∧
      normalizePolygonLabel "person" = "main") := by
  refine ⟨?_, ⟨by decide, by decide, by decide⟩, textKey_fixed,
    by decide, by decide, by decide, by decide, by decide, by decide, by decide,
    by decide, by decide⟩
  intro v
  unfold normalizePolygonLabel
  exact congrArg String.mk (normalizePolygonLabelData_idem v.data)

/-- Concrete instantiation of the amended normalization theorem. -/
theorem label_normalization_amended_witness :
    normalizePolygonLabel (normalizePolygonLabel "BG ") =
      normalizePolygonLabel "BG " ∧
    normalizePolygonLabel ("text:" ++ "logo") = "text:" ++ "logo" :=
  ⟨label_normalization_amended.1 "BG ",
    label_normalization_amended.2.2.1 "logo" (by decide)⟩

end Gen

namespace Gen

/-- A template already at 1536×1024 is kept as the base unchanged. -/
theorem ensure_ok (env : PipelineEnv) (t : String)
    (h : env.dims t = (1536, 1024)) :
    ensureSpecialBase1536x1024 env t = ([], .ok t) := by
  unfold ensureSpecialBase1536x1024
  rw [h]
  norm_num

/-- With positive dimensions the mask builder returns the raster. -/
theorem buildEditMask_pos (w h : ℤ) (hw : 0 < w) (hh : 0 < h)
    (ps : List Mask.MaskPolygon) (f : String → Bool) :
    Mask.buildEditMask w h ps f = some (Mask.editMaskBuffer w h ps f) := by
  unfold Mask.buildEditMask
  rw [if_neg (by omega)]

/-- A masked pass in which every collaborator succeeds: the mask and both
prompts are persisted, then the primary edit runs and its output is
persisted; the pass returns the output path and bytes. -/
theorem maskedPass_ok (env : PipelineEnv) (generationId : String)
    (polys : List Mask.MaskPolygon)
    (passName slotAbs maskStep promptStep fallbackStep outStep : String)
    (builder : Option String → String) (notes : Option String)
    (base b : String)
    (hdim : env.dims base = (1536, 1024))
    (hs1 : env.storageOk maskStep = true) (hs2 : env.storageOk promptStep = true)
    (hs3 : env.storageOk fallbackStep = true) (hs4 : env.storageOk outStep = true)
    (he : env.edit passName (builder notes) = .ok b) :
    maskedPass env generationId polys passName slotAbs maskStep promptStep
      fallbackStep outStep builder notes base =
      ([.saveImage maskStep, .saveText promptStep, .saveText fallbackStep,
        .editCall passName false, .saveImage outStep], .ok (outStep, b)) := by
  unfold maskedPass readImageDimensionsOrThrow
  rw [hdim]
  rw [if_neg (by norm_num)]
  dsimp only
  rw [buildEditMask_pos 1536 1024 (by norm_num) (by norm_num)]
  dsimp only
  simp only [hs1, hs2, hs3, eq_self_iff_true, if_true]
  unfold runImageEditOrThrow
  rw [he]
  dsimp only
  simp only [hs4, eq_self_iff_true, if_true]
  rfl

/-- A masked pass whose mask persist fails aborts before the edit runs. -/
theorem maskedPass_maskFail (env : PipelineEnv) (generationId : String)
    (polys : List Mask.MaskPolygon)
    (passName slotAbs maskStep promptStep fallbackStep outStep : String)
    (builder : Option String → String) (notes : Option String) (base : String)
    (hdim : env.dims base = (1536, 1024))
    (hs1 : env.storageOk maskStep = false) :
    maskedPass env generationId polys passName slotAbs maskStep promptStep
      fallbackStep outStep builder notes base =
      ([], .error ("storage: " ++ maskStep)) := by
  unfold maskedPass readImageDimensionsOrThrow
  rw [hdim]
  rw [if_neg (by norm_num)]
  dsimp only
  rw [buildEditMask_pos 1536 1024 (by norm_num) (by norm_num)]
  dsimp only
  rw [hs1]
  rw [if_neg (by decide)]

/-- The text pass with all collaborators succeeding. -/
theorem textPass_ok (env : PipelineEnv) (generationId : String)
    (notes : Option String) (b : String)
    (hs1 : env.storageOk "prompt-text" = true)
    (hs2 : env.storageOk "pass-3-text" = true)
    (he : env.edit "text" (env.textPrompt notes) = .ok b) :
    textPass env generationId notes =
      ([.saveText "prompt-text", .editCall "text" false,
        .saveImage "pass-3-text"], .ok b) := by
  unfold textPass
  simp only [hs1, eq_self_iff_true, if_true]
  unfold runImageEditOrThrow
  rw [he]
  dsimp only
  simp only [hs2, eq_self_iff_true, if_true]
  rfl

end Gen

namespace Gen

/-- Full-success run with background, main and text all applicable: the
complete event trace and final bytes. -/
theorem generateSpecial_ok_trace (env : PipelineEnv) (args : SpecialArgs)
    (bgp mp b1 b2 b3 : String)
    (hdims : ∀ p, env.dims p = (1536, 1024))
    (hstore : ∀ s, env.storageOk s = true)
    (hbg : args.subjectAbsPathBySlotId.lookup "background" = some bgp)
    (hmain : args.subjectAbsPathBySlotId.lookup "main" = some mp)
    (hlb : ((normalizePolygons args.polygons).map (fun p => p.label)).contains
      "background" = true)
    (hlm : ((normalizePolygons args.polygons).map (fun p => p.label)).contains
      "main" = true)
    (htx : args.texts.isEmpty = false)
    (hb1 : env.edit "background" (env.bgPrompt args.userNotes) = .ok b1)
    (hb2 : env.edit "main" (env.mainPrompt args.userNotes) = .ok b2)
    (hb3 : env.edit "text" (env.textPrompt args.userNotes) = .ok b3) :
    generateSpecialWithMasks env args =
      ([.saveImage "mask-background", .saveText "prompt-background",
        .saveText "prompt-background-fallback", .editCall "background" false,
        .saveImage "pass-1-background",
        .saveImage "mask-main", .saveText "prompt-main",
        .saveText "prompt-main-fallback", .editCall "main" false,
        .saveImage "pass-2-main",
        .saveText "prompt-text", .editCall "text" false,
        .saveImage "pass-3-text"], .ok b3) := by
  unfold generateSpecialWithMasks
  rw [hbg, hmain, ensure_ok env _ (hdims _)]
  dsimp only
  simp only [hlb, hlm, eq_self_iff_true, if_true]
  rw [maskedPass_ok env args.generationId _ "background" bgp "mask-background"
    "prompt-background" "prompt-background-fallback" "pass-1-background"
    env.bgPrompt args.userNotes args.templateAbsPath b1 (hdims _) (hstore _)
    (hstore _) (hstore _) (hstore _) hb1]
  dsimp only
  rw [maskedPass_ok env args.generationId _ "main" mp "mask-main" "prompt-main"
    "prompt-main-fallback" "pass-2-main" env.mainPrompt args.userNotes
    "pass-1-background" b2 (hdims _) (hstore _) (hstore _) (hstore _)
    (hstore _) hb2]
  dsimp only
  rw [if_neg (show ¬(args.texts.isEmpty = true) from by rw [htx]; decide)]
  rw [textPass_ok env args.generationId args.userNotes b3 (hstore _) (hstore _) hb3]
  dsimp only
  simp only [List.nil_append, List.cons_append, List.append_nil]

/-- Full-success run with the main-subject input omitted: background and
text passes execute, the main pass is skipped. -/
theorem generateSpecial_noMain_trace (env : PipelineEnv) (args : SpecialArgs)
    (bgp b1 b3 : String)
    (hdims : ∀ p, env.dims p = (1536, 1024))
    (hstore : ∀ s, env.storageOk s = true)
    (hbg : args.subjectAbsPathBySlotId.lookup "background" = some bgp)
    (hmain : args.subjectAbsPathBySlotId.lookup "main" = none)
    (hlb : ((normalizePolygons args.polygons).map (fun p => p.label)).contains
      "background" = true)
    (htx : args.texts.isEmpty = false)
    (hb1 : env.edit "background" (env.bgPrompt args.userNotes) = .ok b1)
    (hb3 : env.edit "text" (env.textPrompt args.userNotes) = .ok b3) :
    generateSpecialWithMasks env args =
      ([.saveImage "mask-background", .saveText "prompt-background",
        .saveText "prompt-background-fallback", .editCall "background" false,
        .saveImage "pass-1-background",
        .saveText "prompt-text", .editCall "text" false,
        .saveImage "pass-3-text"], .ok b3) := by
  unfold generateSpecialWithMasks
  rw [hbg, hmain, ensure_ok env _ (hdims _)]
  dsimp only
  simp only [hlb, eq_self_iff_true, if_true]
  rw [maskedPass_ok env args.generationId _ "background" bgp "mask-background"
    "prompt-background" "prompt-background-fallback" "pass-1-background"
    env.bgPrompt args.userNotes args.templateAbsPath b1 (hdims _) (hstore _)
    (hstore _) (hstore _) (hstore _) hb1]
  dsimp only
  rw [if_neg (show ¬(args.texts.isEmpty = true) from by rw [htx]; decide)]
  rw [textPass_ok env args.generationId args.userNotes b3 (hstore _) (hstore _) hb3]
  dsimp only
  simp only [List.nil_append, List.cons_append, List.append_nil]

end Gen

namespace Gen

/-- The failure message of `runImageEditOrThrow` carries the pass name and
the generation id. -/
theorem editFailMsg_mentions (passName generationId : String) (err : EditErr) :
    ∃ s1 s2 s3, editFailMsg passName generationId err =
      s1 ++ passName ++ s2 ++ generationId ++ s3 := by
  refine ⟨"OpenAI image edit failed during special-template pass=",
    " (generationId=",
    ")." ++
      (if Mask.jsTrimStr err.requestId = "" then ""
        else " requestId=" ++ Mask.jsTrimStr err.requestId ++ ".") ++
      (if Mask.jsTrimStr err.code = "" then ""
        else " code=" ++ Mask.jsTrimStr err.code ++ ".") ++
      (if Mask.jsTrimStr err.message = "" then ""
        else " message=" ++ Mask.jsTrimStr err.message), ?_⟩
  simp only [editFailMsg, String.append_assoc]

/-- **C1.** Passes execute strictly in the fixed order
background → main → text: with all-success collaborators, background
subject and main subject supplied and matching polygons and texts present,
the executed pass names are exactly `["background", "main", "text"]`; with
only the main-subject input omitted, they are exactly
`["background", "text"]` and `"main"` never executes — a skipped pass does
not block later passes. -/
theorem pipeline_pass_order (env : PipelineEnv) (args : SpecialArgs)
    (bgp : String)
    (hdims : ∀ p, env.dims p = (1536, 1024))
    (hstore : ∀ s, env.storageOk s = true)
    (hedit : ∀ p pr, ∃ b, env.edit p pr = Except.ok b)
    (hbg : args.subjectAbsPathBySlotId.lookup "background" = some bgp)
    (hlb : ((normalizePolygons args.polygons).map (fun p => p.label)).contains
      "background" = true)
    (hlm : ((normalizePolygons args.polygons).map (fun p => p.label)).contains
      "main" = true)
    (htx : args.texts.isEmpty = false) :
    (∀ mp, args.subjectAbsPathBySlotId.lookup "main" = some mp →
      executedPasses (generateSpecialWithMasks env args).1 =
        ["background", "main", "text"]) ∧
    (args.subjectAbsPathBySlotId.lookup "main" = none →
      executedPasses (generateSpecialWithMasks env args).1 =
        ["background", "text"] ∧
      "main" ∉ executedPasses (generateSpecialWithMasks env args).1) := by
  constructor
  · intro mp hmain
    obtain ⟨b1, hb1⟩ := hedit "background" (env.bgPrompt args.userNotes)
    obtain ⟨b2, hb2⟩ := hedit "main" (env.mainPrompt args.userNotes)
    obtain ⟨b3, hb3⟩ := hedit "text" (env.textPrompt args.userNotes)
    rw [generateSpecial_ok_trace env args bgp mp b1 b2 b3 hdims hstore hbg
      hmain hlb hlm htx hb1 hb2 hb3]
    rfl
  · intro hmain
    obtain ⟨b1, hb1⟩ := hedit "background" (env.bgPrompt args.userNotes)
    obtain ⟨b3, hb3⟩ := hedit "text" (env.textPrompt args.userNotes)
    rw [generateSpecial_noMain_trace env args bgp b1 b3 hdims hstore hbg
      hmain hlb htx hb1 hb3]
    constructor
    · rfl
    · show "main" ∉ (["background", "text"] : List String)
      decide

/-- Closed instance of `pipeline_pass_order`: a concrete all-success run
with both subjects executes `["background", "main", "text"]`, and the same
run without the main subject executes `["background", "text"]`. -/
theorem pipeline_pass_order_witness :
    executedPasses (generateSpecialWithMasks okEnv fullArgs).1 =
      ["background", "main", "text"] ∧
    (executedPasses (generateSpecialWithMasks okEnv noMainArgs).1 =
      ["background", "text"] ∧
    "main" ∉ executedPasses (generateSpecialWithMasks okEnv noMainArgs).1) :=
  ⟨(pipeline_pass_order okEnv fullArgs "bg.png" (fun _ => rfl) (fun _ => rfl)
      (fun _ _ => ⟨"edited-bytes", rfl⟩) (by decide) (by decide) (by decide)
      rfl).1 "main.png" (by decide),
   (pipeline_pass_order okEnv noMainArgs "bg.png" (fun _ => rfl)
      (fun _ => rfl) (fun _ _ => ⟨"edited-bytes", rfl⟩) (by decide)
      (by decide) (by decide) rfl).2 (by decide)⟩

end Gen

namespace Gen

/-- **C3.** Moderation-block retry policy of `runImageEditOrThrow`: when the
primary edit fails with a (trimmed) `moderation_blocked` code and a fallback
closure is available, the fallback runs exactly once — if it succeeds its
output is the pass result and no error is raised; if it also fails, the
failure is surfaced as an edit-failure message carrying the pass name and
the generation id; any other error code is surfaced immediately without
invoking the fallback. -/
theorem moderation_retry_policy {β : Type} (generationId passName : String)
    (err : EditErr) (retry : Except EditErr β) :
    (∀ b, retry = Except.ok b →
      Mask.jsTrimStr err.code = "moderation_blocked" →
      runImageEditOrThrow generationId passName (Except.error err)
          (some retry) =
        ([Event.editCall passName false, Event.editCall passName true],
          Except.ok b)) ∧
    (∀ retryErr, retry = Except.error retryErr →
      Mask.jsTrimStr err.code = "moderation_blocked" →
      runImageEditOrThrow generationId passName (Except.error err)
          (some retry) =
        ([Event.editCall passName false, Event.editCall passName true],
          Except.error (editFailMsg passName generationId retryErr)) ∧
      ∃ s1 s2 s3, editFailMsg passName generationId retryErr =
        s1 ++ passName ++ s2 ++ generationId ++ s3) ∧
    (Mask.jsTrimStr err.code ≠ "moderation_blocked" →
      runImageEditOrThrow generationId passName (Except.error err)
          (some retry) =
        ([Event.editCall passName false],
          Except.error (editFailMsg passName generationId err)) ∧
      ∃ s1 s2 s3, editFailMsg passName generationId err =
        s1 ++ passName ++ s2 ++ generationId ++ s3) := by
  refine ⟨?_, ?_, ?_⟩
  · intro b hr hcode
    subst hr
    unfold runImageEditOrThrow
    dsimp only
    rw [if_pos hcode]
  · intro retryErr hr hcode
    subst hr
    refine ⟨?_, editFailMsg_mentions passName generationId retryErr⟩
    unfold runImageEditOrThrow
    dsimp only
    rw [if_pos hcode]
  · intro hcode
    refine ⟨?_, editFailMsg_mentions passName generationId err⟩
    unfold runImageEditOrThrow
    dsimp only
    rw [if_neg hcode]

/-- Closed instance of `moderation_retry_policy`: a moderation-blocked
primary with a succeeding fallback yields the fallback's bytes with both
invocations recorded, and a `rate_limit` failure is surfaced with no
fallback invocation. -/
theorem moderation_retry_policy_witness :
    runImageEditOrThrow "gen-1" "background"
        (Except.error ⟨"moderation_blocked", "", ""⟩)
        (some (Except.ok "fallback-bytes")) =
      ([Event.editCall "background" false, Event.editCall "background" true],
        Except.ok "fallback-bytes") ∧
    runImageEditOrThrow (β := String) "gen-1" "background"
        (Except.error ⟨"rate_limit", "", ""⟩) (some (Except.ok "x")) =
      ([Event.editCall "background" false],
        Except.error (editFailMsg "background" "gen-1"
          ⟨"rate_limit", "", ""⟩)) :=
  ⟨(moderation_retry_policy "gen-1" "background"
      ⟨"moderation_blocked", "", ""⟩ (Except.ok "fallback-bytes")).1
      "fallback-bytes" rfl (by decide),
   ((moderation_retry_policy "gen-1" "background" ⟨"rate_limit", "", ""⟩
      (Except.ok "x")).2.2 (by decide)).1⟩

end Gen

namespace Gen

/-- **C4.** When no pass is applicable — no normalized polygon label matches
`background` or `main` for whatever inputs were supplied, and no text values
were supplied — the pipeline fails explicitly with the no-applicable-pass
message (sorted uploaded slot ids, normalized labels) instead of returning
the untouched template as a success. -/
theorem no_applicable_pass (env : PipelineEnv) (args : SpecialArgs)
    (hdims : ∀ p, env.dims p = (1536, 1024))
    (hlb : ((normalizePolygons args.polygons).map (fun p => p.label)).contains
      "background" = false)
    (hlm : ((normalizePolygons args.polygons).map (fun p => p.label)).contains
      "main" = false)
    (htx : args.texts.isEmpty = true) :
    (generateSpecialWithMasks env args).2 =
      Except.error (noApplicablePassMsg
        (List.insertionSort (fun a b => a ≤ b)
          (args.subjectAbsPathBySlotId.map (fun kv => kv.1)))
        ((normalizePolygons args.polygons).map (fun p => p.label))) := by
  unfold generateSpecialWithMasks
  rw [ensure_ok env _ (hdims _)]
  cases hb : args.subjectAbsPathBySlotId.lookup "background" <;>
    cases hm : args.subjectAbsPathBySlotId.lookup "main" <;>
      simp only [hb, hm, hlb, hlm, htx, Bool.false_eq_true, if_false,
        eq_self_iff_true, if_true] <;> rfl

/-- Closed instance of `no_applicable_pass`: a run with a background image
uploaded but only a `circle` polygon and no texts fails with the
no-applicable-pass message. -/
theorem no_applicable_pass_witness :
    (generateSpecialWithMasks okEnv noMatchArgs).2 =
      Except.error (noApplicablePassMsg ["background"] ["circle"]) := by
  rw [no_applicable_pass okEnv noMatchArgs (fun _ => rfl) (by decide)
    (by decide) rfl]
  rfl

end Gen

namespace Gen

/-- **C8 (counterexample).** Artifact persistence is not fire-and-forget: in
a run whose only failing collaborator is the persist of the background mask
(`maskFailEnv`), the whole pipeline fails with that storage error — the
`await storage.saveTempIntermediate…` calls have no try/catch, so a persist
failure propagates. -/
theorem artifact_persistence_not_fire_and_forget :
    (generateSpecialWithMasks maskFailEnv fullArgs).2 =
      Except.error ("storage: mask-background") := by
  rfl

/-- **C8 (amended).** For every pass that executes, the mask and the prompts
are persisted before the edit capability is invoked (the event trace of a
full run lists each pass's saves ahead of its `editCall`); but persistence
is not fire-and-forget: if persisting the background mask fails, the
pipeline aborts with that storage error before any edit is invoked. -/
theorem artifact_persistence_order (env : PipelineEnv) (args : SpecialArgs)
    (bgp : String)
    (hdims : ∀ p, env.dims p = (1536, 1024))
    (hbg : args.subjectAbsPathBySlotId.lookup "background" = some bgp)
    (hlb : ((normalizePolygons args.polygons).map (fun p => p.label)).contains
      "background" = true) :
    ((∀ s, env.storageOk s = true) →
      (∀ p pr, ∃ b, env.edit p pr = Except.ok b) →
      ∀ mp, args.subjectAbsPathBySlotId.lookup "main" = some mp →
      ((normalizePolygons args.polygons).map (fun p => p.label)).contains
        "main" = true →
      args.texts.isEmpty = false →
      (generateSpecialWithMasks env args).1 =
        [Event.saveImage "mask-background", Event.saveText "prompt-background",
         Event.saveText "prompt-background-fallback",
         Event.editCall "background" false,
         Event.saveImage "pass-1-background",
         Event.saveImage "mask-main", Event.saveText "prompt-main",
         Event.saveText "prompt-main-fallback", Event.editCall "main" false,
         Event.saveImage "pass-2-main",
         Event.saveText "prompt-text", Event.editCall "text" false,
         Event.saveImage "pass-3-text"]) ∧
    (env.storageOk "mask-background" = false →
      generateSpecialWithMasks env args =
        ([], Except.error ("storage: " ++ "mask-background"))) := by
  constructor
  · intro hstore hedit mp hmain hlm htx
    obtain ⟨b1, hb1⟩ := hedit "background" (env.bgPrompt args.userNotes)
    obtain ⟨b2, hb2⟩ := hedit "main" (env.mainPrompt args.userNotes)
    obtain ⟨b3, hb3⟩ := hedit "text" (env.textPrompt args.userNotes)
    rw [generateSpecial_ok_trace env args bgp mp b1 b2 b3 hdims hstore hbg
      hmain hlb hlm htx hb1 hb2 hb3]
  · intro hsf
    unfold generateSpecialWithMasks
    rw [hbg, ensure_ok env _ (hdims _)]
    dsimp only
    simp only [hlb, eq_self_iff_true, if_true]
    rw [maskedPass_maskFail env args.generationId _ "background" bgp
      "mask-background" "prompt-background" "prompt-background-fallback"
      "pass-1-background" env.bgPrompt args.userNotes args.templateAbsPath
      (hdims _) hsf]
    rfl

/-- Closed instance of `artifact_persistence_order`: the all-success run
produces exactly the thirteen-event trace with saves ahead of each edit, and
the mask-persist-failure run aborts with the storage error. -/
theorem artifact_persistence_order_witness :
    (generateSpecialWithMasks okEnv fullArgs).1 =
      [Event.saveImage "mask-background", Event.saveText "prompt-background",
       Event.saveText "prompt-background-fallback",
       Event.editCall "background" false,
       Event.saveImage "pass-1-background",
       Event.saveImage "mask-main", Event.saveText "prompt-main",
       Event.saveText "prompt-main-fallback", Event.editCall "main" false,
       Event.saveImage "pass-2-main",
       Event.saveText "prompt-text", Event.editCall "text" false,
       Event.saveImage "pass-3-text"] ∧
    generateSpecialWithMasks maskFailEnv fullArgs =
      ([], Except.error ("storage: " ++ "mask-background")) :=
  ⟨(artifact_persistence_order okEnv fullArgs "bg.png" (fun _ => rfl)
      (by decide) (by decide)).1 (fun _ => rfl)
      (fun _ _ => ⟨"edited-bytes", rfl⟩) "main.png" (by decide) (by decide)
      rfl,
   (artifact_persistence_order maskFailEnv fullArgs "bg.png" (fun _ => rfl)
      (by decide) (by decide)).2 rfl⟩

end Gen
